import Mathlib

/-!
# STM32G0xx flash programming algorithm (`FlashPrg.c`)

A shallow embedding of `src/CMSIS/Flash/STM32G0xx/FlashPrg.c`.

* `u32` values are natural numbers; every operation that can leave the 32-bit
  range in C (`+`, `-`, `<<`, `~`) is reduced modulo `2^32` explicitly.
* The memory-mapped peripherals are modelled by an input tape and an output
  trace.  Every volatile register read (`FLASH->SR`, `FLASH->CR`, ...) takes the
  next word from the tape: the tape is the sequence of words the hardware
  answers to the successive register reads, in program order.  Every register
  write, every `M32(adr) = v` store and every barrier is appended to the trace.
* A function returns `none` when the tape is exhausted before the function
  returns (the hardware script was too short) or when a loop runs out of fuel.
-/

set_option linter.unusedVariables false

namespace STM32G0xx

/-! ## 32-bit arithmetic -/

/-- Addition of two `u32` values (wraps at `2^32`). -/
def add32 (a b : Nat) : Nat := (a + b) % 2 ^ 32

/-- Subtraction of two `u32` values (wraps at `2^32`). -/
def sub32 (a b : Nat) : Nat := (a + (2 ^ 32 - b % 2 ^ 32)) % 2 ^ 32

/-- Left shift of a `u32` value (bits shifted out of the word are lost). -/
def shl32 (a n : Nat) : Nat := (a <<< n) % 2 ^ 32

/-- Bitwise complement of a `u32` value. -/
def not32 (a : Nat) : Nat := (2 ^ 32 - 1) ^^^ (a % 2 ^ 32)

/-! ## Peripheral registers, events, state -/

/-- The registers of `FLASH_TypeDef`, `IWDG_TypeDef`, `WWDG_TypeDef` and
`DBGMCU_TypeDef` that the driver touches. -/
inductive Reg
  | ACR | KEYR | OPTKEYR | SR | CR | OPTR
  | PCROP1ASR | PCROP1AER | WRP1AR | WRP1BR | PCROP1BSR | PCROP1BER
  | PCROP2ASR | PCROP2AER | WRP2AR | WRP2BR | PCROP2BSR | PCROP2BER
  | SECR
  | IWDG_KR | IWDG_PR | IWDG_RLR
  | WWDG_CR | WWDG_CFR
  | IDCODE
  deriving DecidableEq

/-- One observable action of the driver. -/
inductive Event
  | irqOff                      -- `__disable_irq()`
  | nop                         -- `__NOP()`
  | dsb                         -- `__DSB()`
  | rd (r : Reg) (v : Nat)      -- volatile read of register `r` that returned `v`
  | wr (r : Reg) (v : Nat)      -- volatile write of `v` to register `r`
  | mwr (adr v : Nat)           -- `M32(adr) = v`
  deriving DecidableEq

/-- The five global variables of `FlashPrg.c` (lines 174-178). -/
structure Globals where
  flashType : Nat
  flashBase : Nat
  flashSize : Nat
  flashBankSize : Nat
  flashBankMode : Nat
  deriving DecidableEq

/-- Machine state threaded through the driver: the globals, the words the
hardware will answer to the coming register reads, and the actions so far. -/
structure St where
  g : Globals
  tape : List Nat
  trace : List Event
  deriving DecidableEq

/-- Append an event to the trace. -/
def emit (e : Event) (s : St) : St := { s with trace := s.trace ++ [e] }

/-- Volatile register write. -/
def wr (r : Reg) (v : Nat) (s : St) : St := emit (Event.wr r v) s

/-- The store `M32(adr) = v`. -/
def mwr (adr v : Nat) (s : St) : St := emit (Event.mwr adr v) s

/-- Volatile register read: the hardware answers with the next tape word. -/
def rd (r : Reg) (s : St) : Option (Nat × St) :=
  match s.tape with
  | [] => none
  | v :: t => some (v, { s with tape := t, trace := s.trace ++ [Event.rd r v] })

/-! ## Constants (lines 62-171) -/

def FLASHSIZE_BASE : Nat := 0x1FFF75E0

def FLASH_KEY1 : Nat := 0x45670123
def FLASH_KEY2 : Nat := 0xCDEF89AB
def FLASH_OPTKEY1 : Nat := 0x08192A3B
def FLASH_OPTKEY2 : Nat := 0x4C5D6E7F

def FLASH_ACR_EMPTY : Nat := 1 <<< 16

def FLASH_CR_PG : Nat := 1
def FLASH_CR_PER : Nat := 1 <<< 1
def FLASH_CR_MER1 : Nat := 1 <<< 2
def FLASH_CR_PNB_MSK : Nat := 0x7F <<< 3
def FLASH_CR_MER2 : Nat := 1 <<< 15
def FLASH_CR_STRT : Nat := 1 <<< 16
def FLASH_CR_OPTSTRT : Nat := 1 <<< 17
def FLASH_CR_OBL_LAUNCH : Nat := 1 <<< 27
def FLASH_CR_OPTLOCK : Nat := 1 <<< 30
def FLASH_CR_LOCK : Nat := 1 <<< 31

def FLASH_SR_EOP : Nat := 1
def FLASH_SR_OPERR : Nat := 1 <<< 1
def FLASH_SR_PROGERR : Nat := 1 <<< 3
def FLASH_SR_WRPERR : Nat := 1 <<< 4
def FLASH_SR_PGAERR : Nat := 1 <<< 5
def FLASH_SR_SIZERR : Nat := 1 <<< 6
def FLASH_SR_PGSERR : Nat := 1 <<< 7
def FLASH_SR_MISSERR : Nat := 1 <<< 8
def FLASH_SR_FASTERR : Nat := 1 <<< 9
def FLASH_SR_RDERR : Nat := 1 <<< 14
def FLASH_SR_OPTVERR : Nat := 1 <<< 15
def FLASH_SR_BSY1 : Nat := 1 <<< 16
def FLASH_SR_BSY2 : Nat := 1 <<< 17

def FLASH_SR_BSY : Nat := FLASH_SR_BSY1 ||| FLASH_SR_BSY2

def FLASH_PGERR : Nat :=
  FLASH_SR_OPERR ||| FLASH_SR_PROGERR ||| FLASH_SR_WRPERR |||
  FLASH_SR_PGAERR ||| FLASH_SR_SIZERR ||| FLASH_SR_PGSERR |||
  FLASH_SR_MISSERR ||| FLASH_SR_FASTERR ||| FLASH_SR_RDERR ||| FLASH_SR_OPTVERR

def FLASH_OPTR_RDP : Nat := 0xFF
def FLASH_OPTR_RDP_NO : Nat := 0xAA
def FLASH_OPTR_IDWG_SW : Nat := 1 <<< 16
def FLASH_OPTR_WWDG_SW : Nat := 1 <<< 19
def FLASH_OPTR_DBANK : Nat := 1 <<< 21

/-! ## Busy wait -/

/-- The loop `while (FLASH->SR & FLASH_SR_BSY) __NOP();` over the tape: every
poll consumes one tape word; a busy answer is followed by a `__NOP()`. -/
def spin : List Nat → List Event → Option (List Nat × List Event)
  | [], _ => none
  | v :: t, tr =>
    if v &&& FLASH_SR_BSY ≠ 0 then spin t (tr ++ [Event.rd Reg.SR v, Event.nop])
    else some (t, tr ++ [Event.rd Reg.SR v])

/-- State form of `spin`. -/
def waitBusy (s : St) : Option St :=
  match spin s.tape s.trace with
  | none => none
  | some (t, tr) => some { s with tape := t, trace := tr }

/-! ## Address / geometry resolver (lines 196-298) -/

/-- `GetFlashType` (lines 196-214): reads `DBGMCU->IDCODE`. -/
def GetFlashType (s : St) : Option (Nat × St) :=
  match rd Reg.IDCODE s with
  | none => none
  | some (id, s) =>
    if id &&& 0xFFF = 0x456 ∨ id &&& 0xFFF = 0x460 ∨ id &&& 0xFFF = 0x466 then some (0, s)
    else some (1, s)

/-- `GetFlashBankMode` (lines 225-231): reads `FLASH->OPTR`. -/
def GetFlashBankMode (s : St) : Option (Nat × St) :=
  match rd Reg.OPTR s with
  | none => none
  | some (optr, s) => some (if optr &&& FLASH_OPTR_DBANK ≠ 0 then 1 else 0, s)

/-- `GetFlashBankNum` (lines 242-267). -/
def GetFlashBankNum (g : Globals) (adr : Nat) : Nat :=
  if g.flashType = 1 then
    if g.flashBankMode = 1 ∨ g.flashSize = 0x80000 then
      if adr ≥ add32 g.flashBase g.flashBankSize then 1 else 0
    else 0
  else 0

/-- `GetFlashPageNum` (lines 278-298). -/
def GetFlashPageNum (g : Globals) (adr : Nat) : Nat :=
  if g.flashType = 1 then
    if g.flashBankMode = 1 ∨ g.flashSize = 0x80000 then
      (adr &&& sub32 g.flashBankSize 1) >>> 11
    else
      (adr &&& sub32 g.flashSize 1) >>> 11
  else
    (adr &&& sub32 g.flashSize 1) >>> 11

/-! ## Build variants -/

/-- The memory region a build of the algorithm serves (`FLASH_MEM`, `FLASH_OTP`
or `FLASH_OPT`). -/
inductive Region
  | MEM | OTP | OPT
  deriving DecidableEq

/-- The sub-family of an option-byte build (`STM32G0x0` or `STM32G0x1`). -/
inductive Family
  | G0x0 | G0x1
  deriving DecidableEq

/-! ## Init (lines 310-349) -/

/-- `Init`: `mem a` is the 32-bit word stored at address `a` (used for the
size probe at `FLASHSIZE_BASE`). -/
def Init (region : Region) (mem : Nat → Nat) (adr clk fnc : Nat) (s : St) :
    Option (Nat × St) := do
  let s := emit Event.irqOff s
  let s := wr Reg.KEYR FLASH_KEY1 s
  let s := wr Reg.KEYR FLASH_KEY2 s
  let s := if region = Region.OPT then
      wr Reg.OPTKEYR FLASH_OPTKEY2 (wr Reg.OPTKEYR FLASH_OPTKEY1 s)
    else s
  let s ← waitBusy s
  let s ← if region = Region.MEM then (do
      let flashSize := shl32 (mem FLASHSIZE_BASE &&& 0xFFFF) 10
      let (ty, s) ← GetFlashType s
      let (mode, s) ← GetFlashBankMode s
      pure { s with g :=
        { flashType := ty, flashBase := adr, flashSize := flashSize,
          flashBankSize := flashSize >>> 1, flashBankMode := mode } })
    else pure s
  let (o1, s) ← rd Reg.OPTR s
  let s := if o1 &&& FLASH_OPTR_IDWG_SW = 0 then
      wr Reg.IWDG_RLR 4095 (wr Reg.IWDG_PR 6 (wr Reg.IWDG_KR 0x5555 (wr Reg.IWDG_KR 0xAAAA s)))
    else s
  let (o2, s) ← rd Reg.OPTR s
  let s := if o2 &&& FLASH_OPTR_WWDG_SW = 0 then
      wr Reg.WWDG_CR 0x7F (wr Reg.WWDG_CFR 0x1FF s)
    else s
  pure (0, s)

/-! ## The check that follows every busy wait -/

namespace FLASH_MEM

/-- `EraseChip`, main-memory build (lines 401-417). -/
def EraseChip (s : St) : Option (Nat × St) := do
  let s := wr Reg.SR FLASH_PGERR s
  let s := wr Reg.CR (FLASH_CR_MER1 ||| FLASH_CR_MER2) s
  let (c, s) ← rd Reg.CR s
  let s := wr Reg.CR (c ||| FLASH_CR_STRT) s
  let s := emit Event.dsb s
  let s ← waitBusy s
  let (st, s) ← rd Reg.SR s
  if st &&& FLASH_PGERR ≠ 0 then
    pure (1, wr Reg.SR FLASH_PGERR s)
  else
    pure (0, s)

/-- `EraseSector`, main-memory build (lines 479-501). -/
def EraseSector (adr : Nat) (s : St) : Option (Nat × St) := do
  let b := GetFlashBankNum s.g adr
  let p := GetFlashPageNum s.g adr
  let s := wr Reg.SR FLASH_PGERR s
  let s := wr Reg.CR (FLASH_CR_PER ||| shl32 p 3 ||| shl32 b 13) s
  let (c, s) ← rd Reg.CR s
  let s := wr Reg.CR (c ||| FLASH_CR_STRT) s
  let s := emit Event.dsb s
  let s ← waitBusy s
  let (st, s) ← rd Reg.SR s
  if st &&& FLASH_PGERR ≠ 0 then
    pure (1, wr Reg.SR FLASH_PGERR s)
  else
    pure (0, s)

/-- The adjustment `sz = (sz + 7) & ~7` (line 526). -/
def adjustSize (sz : Nat) : Nat := add32 sz 7 &&& not32 7

/-- The loop of `ProgramPage` (lines 532-547) followed by the epilogue (lines
549-551).  `buf off` is the 32-bit word at byte offset `off` of the caller's
buffer; `off` tracks `buf += 8`.  One unit of fuel is spent per evaluation of
the loop condition. -/
def programLoop (buf : Nat → Nat) : Nat → Nat → Nat → Nat → St → Option (Nat × St)
  | 0, _, _, _, _ => none
  | fuel + 1, adr, sz, off, s =>
    if sz ≠ 0 then
      let s := mwr adr (buf off) s
      let s := mwr (add32 adr 4) (buf (off + 4)) s
      let s := emit Event.dsb s
      match waitBusy s with
      | none => none
      | some s =>
        match rd Reg.SR s with
        | none => none
        | some (st, s) =>
          if st &&& FLASH_PGERR ≠ 0 then
            some (1, wr Reg.SR FLASH_PGERR s)
          else
            programLoop buf fuel (add32 adr 8) (sub32 sz 8) (off + 8) s
    else
      match rd Reg.CR s with
      | none => none
      | some (c, s) => some (0, wr Reg.CR (c &&& not32 FLASH_CR_PG) s)

/-- `ProgramPage`, main-memory and OTP builds (lines 524-552). -/
def ProgramPage (fuel : Nat) (adr sz : Nat) (buf : Nat → Nat) (s : St) : Option (Nat × St) :=
  let sz := adjustSize sz
  let s := wr Reg.SR FLASH_PGERR s
  let s := wr Reg.CR FLASH_CR_PG s
  programLoop buf fuel adr sz 0 s

end FLASH_MEM

namespace FLASH_OPT

/-- The register writes of the option-byte `EraseChip` between the error-flag
reset and the start command (lines 428-455). -/
def eraseValues (fam : Family) (db : Bool) : List (Reg × Nat) :=
  match fam with
  | Family.G0x0 =>
    [(Reg.OPTR, 0xFFFFFEAA), (Reg.WRP1AR, 0x0000007F), (Reg.WRP1BR, 0x0000007F)] ++
    (if db then [(Reg.WRP2AR, 0x0000007F), (Reg.WRP2BR, 0x0000007F)] else [])
  | Family.G0x1 =>
    [(Reg.OPTR, 0xFFFFFEAA), (Reg.WRP1AR, 0x000000FF), (Reg.WRP1BR, 0x000000FF),
     (Reg.PCROP1ASR, 0x000001FF), (Reg.PCROP1AER, 0x00000000),
     (Reg.PCROP1BSR, 0x000001FF), (Reg.PCROP1BER, 0x00000000),
     (Reg.SECR, 0x00000000)] ++
    (if db then
      [(Reg.WRP2AR, 0x000000FF), (Reg.WRP2BR, 0x000000FF),
       (Reg.PCROP2ASR, 0x000001FF), (Reg.PCROP2AER, 0x00000000),
       (Reg.PCROP2BSR, 0x000001FF), (Reg.PCROP2BER, 0x00000000)]
    else [])

/-- The register writes of the option-byte `ProgramPage` between the error-flag
reset and the start command (lines 588-615); `buf off` is the 32-bit word at
byte offset `off` of the buffer. -/
def programValues (fam : Family) (db : Bool) (buf : Nat → Nat) : List (Reg × Nat) :=
  match fam with
  | Family.G0x0 =>
    [(Reg.OPTR, buf 0 &&& 0x3F7FFFFF), (Reg.WRP1AR, buf 4 &&& 0x007F007F),
     (Reg.WRP1BR, buf 8 &&& 0x007F007F)] ++
    (if db then
      [(Reg.WRP2AR, buf 12 &&& 0x007F007F), (Reg.WRP2BR, buf 16 &&& 0x007F007F)]
    else [])
  | Family.G0x1 =>
    [(Reg.OPTR, buf 0 &&& 0x3F7FFFFF), (Reg.WRP1AR, buf 4 &&& 0x007F007F),
     (Reg.WRP1BR, buf 8 &&& 0x007F007F),
     (Reg.PCROP1ASR, buf 12 &&& 0x000001FF), (Reg.PCROP1AER, buf 16 &&& 0x800001FF),
     (Reg.PCROP1BSR, buf 20 &&& 0x000001FF), (Reg.PCROP1BER, buf 24 &&& 0x000001FF),
     (Reg.SECR, buf 28 &&& 0x0FF100FF)] ++
    (if db then
      [(Reg.WRP2AR, buf 32 &&& 0x007F007F), (Reg.WRP2BR, buf 36 &&& 0x007F007F),
       (Reg.PCROP2ASR, buf 40 &&& 0x000001FF), (Reg.PCROP2AER, buf 44 &&& 0x800001FF),
       (Reg.PCROP2BSR, buf 48 &&& 0x000001FF), (Reg.PCROP2BER, buf 52 &&& 0x000001FF)]
    else [])

/-- Perform a list of register writes in order. -/
def wrAll (ws : List (Reg × Nat)) (s : St) : St :=
  ws.foldl (fun s w => wr w.1 w.2 s) s

/-- `EraseChip`, option-byte build (lines 421-468). -/
def EraseChip (fam : Family) (db : Bool) (s : St) : Option (Nat × St) := do
  let s := wr Reg.SR FLASH_PGERR s
  let s := wrAll (eraseValues fam db) s
  let s := wr Reg.CR FLASH_CR_OPTSTRT s
  let s := emit Event.dsb s
  let s ← waitBusy s
  let (st, s) ← rd Reg.SR s
  if st &&& FLASH_PGERR ≠ 0 then
    pure (1, wr Reg.SR FLASH_PGERR s)
  else
    pure (0, s)

/-- `ProgramPage`, option-byte build (lines 556-628). -/
def ProgramPage (fam : Family) (db : Bool) (adr sz : Nat) (buf : Nat → Nat) (s : St) :
    Option (Nat × St) := do
  let s := wr Reg.SR FLASH_PGERR s
  let s := wrAll (programValues fam db buf) s
  let s := wr Reg.CR FLASH_CR_OPTSTRT s
  let s := emit Event.dsb s
  let s ← waitBusy s
  let (st, s) ← rd Reg.SR s
  if st &&& FLASH_PGERR ≠ 0 then
    let (v, s) ← rd Reg.SR s
    pure (1, wr Reg.SR (v ||| FLASH_PGERR) s)
  else
    pure (0, s)

end FLASH_OPT

/-! ## Projections of a trace -/

/-- The `M32(adr) = v` stores of a trace, in order, as `(adr, v)`. -/
def memWrites : List Event → List (Nat × Nat)
  | [] => []
  | Event.mwr a v :: tr => (a, v) :: memWrites tr
  | _ :: tr => memWrites tr

/-- The register writes of a trace, in order. -/
def regWrites : List Event → List (Reg × Nat)
  | [] => []
  | Event.wr r v :: tr => (r, v) :: regWrites tr
  | _ :: tr => regWrites tr

/-! ## Hardware scripts -/

/-- The events of the busy polls of one wait: each busy answer `v` is read and
followed by a `__NOP()`. -/
def polls (busy : List Nat) : List Event :=
  busy.flatMap (fun v => [Event.rd Reg.SR v, Event.nop])

/-- Every word of `busy` has a busy bit set. -/
def AllBusy (busy : List Nat) : Prop := ∀ v ∈ busy, v &&& FLASH_SR_BSY ≠ 0

instance (busy : List Nat) : Decidable (AllBusy busy) :=
  inferInstanceAs (Decidable (∀ v ∈ busy, v &&& FLASH_SR_BSY ≠ 0))

/-- The catalogue of main-memory capacities of `FlashDev.c`: 16, 32, 64, 128,
256 and 512 KiB. -/
def SupportedSize (n : Nat) : Prop :=
  n = 0x4000 ∨ n = 0x8000 ∨ n = 0x10000 ∨ n = 0x20000 ∨ n = 0x40000 ∨ n = 0x80000

instance (n : Nat) : Decidable (SupportedSize n) :=
  inferInstanceAs (Decidable (n = 0x4000 ∨ n = 0x8000 ∨ n = 0x10000 ∨ n = 0x20000 ∨
    n = 0x40000 ∨ n = 0x80000))

/-- Dual-bank addressing is active (the first branch of `GetFlashBankNum` and
`GetFlashPageNum`). -/
def DualAddressing (g : Globals) : Prop :=
  g.flashType = 1 ∧ (g.flashBankMode = 1 ∨ g.flashSize = 0x80000)

instance (g : Globals) : Decidable (DualAddressing g) :=
  inferInstanceAs (Decidable (g.flashType = 1 ∧ (g.flashBankMode = 1 ∨ g.flashSize = 0x80000)))

/-- The outcome `res` of an operation reports the status word `st` read after
the busy wait: it returned 1 when `st` shares a bit with `FLASH_PGERR` and 0
otherwise, and in the failing case its last action was a write to the status
register of a value that contains every bit of `FLASH_PGERR`. -/
def ReportsStatus (res : Option (Nat × St)) (st : Nat) : Prop :=
  ∃ s, res = some (if st &&& FLASH_PGERR ≠ 0 then 1 else 0, s) ∧
    (st &&& FLASH_PGERR ≠ 0 →
      ∃ v, s.trace.getLast? = some (Event.wr Reg.SR v) ∧ v &&& FLASH_PGERR = FLASH_PGERR)


/-- The hardware answers during the programming of one double-word: the status
words of the busy polls, the status word that ends the wait, and the status
word read by the error check. -/
structure Seg where
  busy : List Nat
  ready : Nat
  status : Nat

/-- The tape words of one double-word. -/
def Seg.words (x : Seg) : List Nat := x.busy ++ [x.ready, x.status]

/-- The busy bits clear: every word of `busy` is busy and `ready` is not. -/
def Seg.Ends (x : Seg) : Prop := AllBusy x.busy ∧ x.ready &&& FLASH_SR_BSY = 0

instance (x : Seg) : Decidable x.Ends :=
  inferInstanceAs (Decidable (AllBusy x.busy ∧ x.ready &&& FLASH_SR_BSY = 0))

/-- The status word read after the wait shows no aggregate-error bit. -/
def Seg.Clean (x : Seg) : Prop := x.status &&& FLASH_PGERR = 0

instance (x : Seg) : Decidable x.Clean :=
  inferInstanceAs (Decidable (x.status &&& FLASH_PGERR = 0))

/-- The tape of consecutive double-words. -/
def script (segs : List Seg) : List Nat := segs.flatMap Seg.words

/-- The events of one pass through the loop body of `ProgramPage` up to and
including the status read of the error check. -/
def dwordEvents (buf : Nat → Nat) (adr off : Nat) (x : Seg) : List Event :=
  [Event.mwr adr (buf off), Event.mwr (add32 adr 4) (buf (off + 4)), Event.dsb]
  ++ polls x.busy ++ [Event.rd Reg.SR x.ready, Event.rd Reg.SR x.status]

/-- The events of consecutive passes through the loop body. -/
def loopEvents (buf : Nat → Nat) : Nat → Nat → List Seg → List Event
  | _, _, [] => []
  | adr, off, x :: xs => dwordEvents buf adr off x ++ loopEvents buf (add32 adr 8) (off + 8) xs

/-- The stores of the first `n` double-words of a page at `adr`: for
`i = 0, ..., n-1` the buffer word at offset `8i` to `adr + 8i`, then the buffer
word at offset `8i + 4` to `adr + 8i + 4` (addresses in 32-bit arithmetic). -/
def dwordWrites (buf : Nat → Nat) (adr n : Nat) : List (Nat × Nat) :=
  (List.range n).flatMap fun i =>
    [((adr + 8 * i) % 2 ^ 32, buf (8 * i)), ((adr + 8 * i + 4) % 2 ^ 32, buf (8 * i + 4))]


/-- What the check after the busy wait returns for the status word `st`. -/
def verdict (st : Nat) : Nat := if st &&& FLASH_PGERR ≠ 0 then 1 else 0

/-! ## UnInit, BlankCheck, Verify (lines 358-392, 641-760) -/

/-- The loop `while (FLASH->CR & FLASH_CR_OBL_LAUNCH);` of the option-byte
`UnInit` over the tape: every poll consumes one tape word. -/
def spinLaunch : List Nat → List Event → Option (List Nat × List Event)
  | [], _ => none
  | v :: t, tr =>
    if v &&& FLASH_CR_OBL_LAUNCH ≠ 0 then spinLaunch t (tr ++ [Event.rd Reg.CR v])
    else some (t, tr ++ [Event.rd Reg.CR v])

/-- State form of `spinLaunch`. -/
def waitLaunch (s : St) : Option St :=
  match spinLaunch s.tape s.trace with
  | none => none
  | some (t, tr) => some { s with tape := t, trace := tr }

/-- `UnInit` (lines 358-377): `mem a` is the 32-bit word stored at address `a`
(used for the plain read `*(u32 *)flashBase`). -/
def UnInit (region : Region) (mem : Nat → Nat) (fnc : Nat) (s : St) : Option (Nat × St) := do
  let s ← if mem s.g.flashBase ≠ 0xFFFFFFFF then (do
      let (a, s) ← rd Reg.ACR s
      pure (wr Reg.ACR (a &&& not32 FLASH_ACR_EMPTY) s))
    else pure s
  let (c, s) ← rd Reg.CR s
  let s := wr Reg.CR (c ||| FLASH_CR_LOCK) s
  let s := emit Event.dsb s
  let s ← if region = Region.OPT then (do
      let s := wr Reg.CR FLASH_CR_OBL_LAUNCH s
      let s := emit Event.dsb s
      let s ← waitLaunch s
      let s := wr Reg.CR FLASH_CR_OPTLOCK s
      pure (emit Event.dsb s))
    else pure s
  pure (0, s)

/-- `BlankCheck` (lines 388-392). -/
def BlankCheck (adr sz pat : Nat) (s : St) : Option (Nat × St) := some (1, s)

/-- `Verify`, option-byte build (lines 641-760); the comparison body is
compiled out by `#if 0`. -/
def FLASH_OPT.Verify (adr sz : Nat) (buf : Nat → Nat) (s : St) : Option (Nat × St) :=
  some (add32 adr sz, s)

/-! ## Descriptions of what Init does -/

/-- The unlock key sequence of `Init` for a build. -/
def keyWrites (region : Region) : List Event :=
  [Event.wr Reg.KEYR FLASH_KEY1, Event.wr Reg.KEYR FLASH_KEY2] ++
  (if region = Region.OPT then
    [Event.wr Reg.OPTKEYR FLASH_OPTKEY1, Event.wr Reg.OPTKEYR FLASH_OPTKEY2] else [])

/-- The tape words consumed by the geometry probe of `Init` (main-memory build
only): the answers to the reads of `IDCODE` and of `OPTR`. -/
def probeTape (region : Region) (id o0 : Nat) : List Nat :=
  if region = Region.MEM then [id, o0] else []

/-- The events of the geometry probe of `Init`. -/
def probeEvents (region : Region) (id o0 : Nat) : List Event :=
  if region = Region.MEM then [Event.rd Reg.IDCODE id, Event.rd Reg.OPTR o0] else []

/-- The globals after `Init`. -/
def initGlobals (region : Region) (mem : Nat → Nat) (adr id o0 : Nat) (g0 : Globals) : Globals :=
  if region = Region.MEM then
    { flashType := if id &&& 0xFFF = 0x456 ∨ id &&& 0xFFF = 0x460 ∨ id &&& 0xFFF = 0x466
                   then 0 else 1,
      flashBase := adr,
      flashSize := shl32 (mem FLASHSIZE_BASE &&& 0xFFFF) 10,
      flashBankSize := shl32 (mem FLASHSIZE_BASE &&& 0xFFFF) 10 >>> 1,
      flashBankMode := if o0 &&& FLASH_OPTR_DBANK ≠ 0 then 1 else 0 }
  else g0

/-- The four register writes that reconfigure the independent watchdog. -/
def iwdgWrites : List (Reg × Nat) :=
  [(Reg.IWDG_KR, 0xAAAA), (Reg.IWDG_KR, 0x5555), (Reg.IWDG_PR, 6), (Reg.IWDG_RLR, 4095)]

/-- The two register writes that reconfigure the window watchdog. -/
def wwdgWrites : List (Reg × Nat) :=
  [(Reg.WWDG_CFR, 0x1FF), (Reg.WWDG_CR, 0x7F)]

/-- The register `r` belongs to the independent watchdog. -/
def isIwdg (r : Reg) : Bool := r = Reg.IWDG_KR || r = Reg.IWDG_PR || r = Reg.IWDG_RLR

/-- The register `r` belongs to the window watchdog. -/
def isWwdg (r : Reg) : Bool := r = Reg.WWDG_CR || r = Reg.WWDG_CFR

/-- The event is a write to a key register. -/
def isKeyWrite : Event → Bool
  | Event.wr Reg.KEYR _ => true
  | Event.wr Reg.OPTKEYR _ => true
  | _ => false

/-- The event is a read of the status register. -/
def isStatusRead : Event → Bool
  | Event.rd Reg.SR _ => true
  | _ => false

/-- The ten status bits of `FLASH_PGERR`: OPERR, PROGERR, WRPERR, PGAERR,
SIZERR, PGSERR, MISSERR, FASTERR, RDERR, OPTVERR. -/
def errorBits : List Nat := [1, 3, 4, 5, 6, 7, 8, 9, 14, 15]


/-! ## Descriptions of the option-byte image -/

/-- The layout of the option-byte image that `ProgramPage` reads, as a list of
fields `(register, byte offset in the buffer, legal-bit mask)` in the order in
which the registers are written. -/
def optionLayout (fam : Family) (db : Bool) : List (Reg × Nat × Nat) :=
  match fam with
  | Family.G0x0 =>
    [(Reg.OPTR, 0, 0x3F7FFFFF), (Reg.WRP1AR, 4, 0x007F007F), (Reg.WRP1BR, 8, 0x007F007F)] ++
    (if db then [(Reg.WRP2AR, 12, 0x007F007F), (Reg.WRP2BR, 16, 0x007F007F)] else [])
  | Family.G0x1 =>
    [(Reg.OPTR, 0, 0x3F7FFFFF), (Reg.WRP1AR, 4, 0x007F007F), (Reg.WRP1BR, 8, 0x007F007F),
     (Reg.PCROP1ASR, 12, 0x000001FF), (Reg.PCROP1AER, 16, 0x800001FF),
     (Reg.PCROP1BSR, 20, 0x000001FF), (Reg.PCROP1BER, 24, 0x000001FF),
     (Reg.SECR, 28, 0x0FF100FF)] ++
    (if db then
      [(Reg.WRP2AR, 32, 0x007F007F), (Reg.WRP2BR, 36, 0x007F007F),
       (Reg.PCROP2ASR, 40, 0x000001FF), (Reg.PCROP2AER, 44, 0x800001FF),
       (Reg.PCROP2BSR, 48, 0x000001FF), (Reg.PCROP2BER, 52, 0x000001FF)]
    else [])

/-- The buffer holding the factory image of a build: the word of each field is
the value that `EraseChip` writes to the field's register (the `i`-th field
lies at byte offset `4 * i`). -/
def factoryImage (fam : Family) (db : Bool) (off : Nat) : Nat :=
  ((FLASH_OPT.eraseValues fam db).map Prod.snd).getD (off / 4) 0xFFFFFFFF

/-- The factory value of an option register is changed by the legal-bit mask
of `ProgramPage`: this is the case for OPTR in every build and for the four
write-protection registers in G0x1 builds. -/
def maskChanges (fam : Family) (r : Reg) : Bool :=
  r = Reg.OPTR ||
  (fam = Family.G0x1 &&
    (r = Reg.WRP1AR || r = Reg.WRP1BR || r = Reg.WRP2AR || r = Reg.WRP2BR))


/-! ## Lemmas on the primitives -/

theorem spin_script (busy : List Nat) (ready : Nat) (rest : List Nat) (tr : List Event)
    (hb : AllBusy busy) (hr : ready &&& FLASH_SR_BSY = 0) :
    spin (busy ++ ready :: rest) tr = some (rest, tr ++ polls busy ++ [Event.rd Reg.SR ready]) := by
  induction busy generalizing tr with
  | nil => simp [spin, hr, polls]
  | cons v t ih =>
    have hv : v &&& FLASH_SR_BSY ≠ 0 := hb v (List.mem_cons_self _ _)
    have ht : AllBusy t := fun w hw => hb w (List.mem_cons_of_mem _ hw)
    simp [spin, hv, ih _ ht, polls, List.flatMap_cons]

theorem waitBusy_script (g : Globals) (busy : List Nat) (ready : Nat) (rest : List Nat)
    (tr : List Event) (hb : AllBusy busy) (hr : ready &&& FLASH_SR_BSY = 0) :
    waitBusy ⟨g, busy ++ ready :: rest, tr⟩ =
      some ⟨g, rest, tr ++ polls busy ++ [Event.rd Reg.SR ready]⟩ := by
  simp [waitBusy, spin_script busy ready rest tr hb hr]

/-! ## Complete runs of the straight-line operations -/

theorem FLASH_MEM.eraseChip_run (g : Globals) (c : Nat) (busy : List Nat) (ready st : Nat)
    (rest : List Nat) (hb : AllBusy busy) (hr : ready &&& FLASH_SR_BSY = 0) :
    FLASH_MEM.EraseChip ⟨g, c :: (busy ++ ready :: st :: rest), []⟩ =
      some (verdict st, ⟨g, rest,
        [Event.wr Reg.SR FLASH_PGERR, Event.wr Reg.CR (FLASH_CR_MER1 ||| FLASH_CR_MER2),
         Event.rd Reg.CR c, Event.wr Reg.CR (c ||| FLASH_CR_STRT), Event.dsb]
        ++ polls busy ++ [Event.rd Reg.SR ready, Event.rd Reg.SR st]
        ++ (if st &&& FLASH_PGERR ≠ 0 then [Event.wr Reg.SR FLASH_PGERR] else [])⟩) := by
  by_cases h : st &&& FLASH_PGERR = 0 <;>
    simp [FLASH_MEM.EraseChip, wr, emit, rd, waitBusy_script _ busy ready _ _ hb hr, verdict, h]

theorem FLASH_MEM.eraseSector_run (g : Globals) (adr c : Nat) (busy : List Nat)
    (ready st : Nat) (rest : List Nat) (hb : AllBusy busy) (hr : ready &&& FLASH_SR_BSY = 0) :
    FLASH_MEM.EraseSector adr ⟨g, c :: (busy ++ ready :: st :: rest), []⟩ =
      some (verdict st, ⟨g, rest,
        [Event.wr Reg.SR FLASH_PGERR,
         Event.wr Reg.CR (FLASH_CR_PER ||| shl32 (GetFlashPageNum g adr) 3
                            ||| shl32 (GetFlashBankNum g adr) 13),
         Event.rd Reg.CR c, Event.wr Reg.CR (c ||| FLASH_CR_STRT), Event.dsb]
        ++ polls busy ++ [Event.rd Reg.SR ready, Event.rd Reg.SR st]
        ++ (if st &&& FLASH_PGERR ≠ 0 then [Event.wr Reg.SR FLASH_PGERR] else [])⟩) := by
  by_cases h : st &&& FLASH_PGERR = 0 <;>
    simp [FLASH_MEM.EraseSector, wr, emit, rd, waitBusy_script _ busy ready _ _ hb hr, verdict, h]

theorem FLASH_OPT.wrAll_eq (ws : List (Reg × Nat)) (s : St) :
    FLASH_OPT.wrAll ws s = ⟨s.g, s.tape, s.trace ++ ws.map (fun w => Event.wr w.1 w.2)⟩ := by
  induction ws generalizing s with
  | nil => simp [FLASH_OPT.wrAll]
  | cons w t ih =>
    have h := ih (wr w.1 w.2 s)
    simp only [FLASH_OPT.wrAll, List.foldl_cons] at h ⊢
    rw [h]
    simp [wr, emit]

theorem FLASH_OPT.optEraseChip_run (fam : Family) (db : Bool) (g : Globals) (busy : List Nat)
    (ready st : Nat) (rest : List Nat) (hb : AllBusy busy) (hr : ready &&& FLASH_SR_BSY = 0) :
    FLASH_OPT.EraseChip fam db ⟨g, busy ++ ready :: st :: rest, []⟩ =
      some (verdict st, ⟨g, rest,
        Event.wr Reg.SR FLASH_PGERR ::
          (FLASH_OPT.eraseValues fam db).map (fun w => Event.wr w.1 w.2)
        ++ [Event.wr Reg.CR FLASH_CR_OPTSTRT, Event.dsb]
        ++ polls busy ++ [Event.rd Reg.SR ready, Event.rd Reg.SR st]
        ++ (if st &&& FLASH_PGERR ≠ 0 then [Event.wr Reg.SR FLASH_PGERR] else [])⟩) := by
  by_cases h : st &&& FLASH_PGERR = 0 <;>
    simp [FLASH_OPT.EraseChip, FLASH_OPT.wrAll_eq, wr, emit, rd,
      waitBusy_script _ busy ready _ _ hb hr, verdict, h]

theorem FLASH_OPT.optProgramPage_run (fam : Family) (db : Bool) (adr sz : Nat) (buf : Nat → Nat)
    (g : Globals) (busy : List Nat) (ready st w : Nat) (rest : List Nat)
    (hb : AllBusy busy) (hr : ready &&& FLASH_SR_BSY = 0) :
    FLASH_OPT.ProgramPage fam db adr sz buf ⟨g, busy ++ ready :: st :: w :: rest, []⟩ =
      some (verdict st, ⟨g, if st &&& FLASH_PGERR ≠ 0 then rest else w :: rest,
        Event.wr Reg.SR FLASH_PGERR ::
          (FLASH_OPT.programValues fam db buf).map (fun w => Event.wr w.1 w.2)
        ++ [Event.wr Reg.CR FLASH_CR_OPTSTRT, Event.dsb]
        ++ polls busy ++ [Event.rd Reg.SR ready, Event.rd Reg.SR st]
        ++ (if st &&& FLASH_PGERR ≠ 0 then
              [Event.rd Reg.SR w, Event.wr Reg.SR (w ||| FLASH_PGERR)] else [])⟩) := by
  by_cases h : st &&& FLASH_PGERR = 0 <;>
    simp [FLASH_OPT.ProgramPage, FLASH_OPT.wrAll_eq, wr, emit, rd,
      waitBusy_script _ busy ready _ _ hb hr, verdict, h]

/-! ## Lemmas on the 32-bit arithmetic -/

theorem add32_of_lt (a b : Nat) (h : a + b < 2 ^ 32) : add32 a b = a + b := by
  unfold add32
  exact Nat.mod_eq_of_lt h

theorem sub32_of_le (a b : Nat) (hb : b ≤ a) (ha : a < 2 ^ 32) : sub32 a b = a - b := by
  unfold sub32
  have h1 : b % 2 ^ 32 = b := Nat.mod_eq_of_lt (by omega)
  rw [h1]
  omega

theorem shl32_of_lt (a n : Nat) (h : a * 2 ^ n < 2 ^ 32) : shl32 a n = a * 2 ^ n := by
  unfold shl32
  rw [Nat.shiftLeft_eq]
  exact Nat.mod_eq_of_lt h

/-- Masking with `size - 1` and shifting right by 11, for a power of two
`size = 2^k`, is the page offset inside a window of `size` bytes. -/
theorem mask_shift_eq (adr k : Nat) : (adr &&& (2 ^ k - 1)) >>> 11 = adr % 2 ^ k / 2048 := by
  rw [Nat.and_pow_two_sub_one_eq_mod, Nat.shiftRight_eq_div_pow]

/-- A masked address shifted right by 11 is bounded by the mask's page count. -/
theorem mask_shift_le (adr m : Nat) : (adr &&& m) >>> 11 ≤ m / 2048 := by
  rw [Nat.shiftRight_eq_div_pow]
  exact Nat.div_le_div_right Nat.and_le_right



theorem or_and_cancel (w m : Nat) : (w ||| m) &&& m = m := by
  apply Nat.eq_of_testBit_eq
  intro i
  simp only [Nat.testBit_and, Nat.testBit_or]
  cases w.testBit i <;> cases m.testBit i <;> rfl

theorem regWrites_append (a b : List Event) : regWrites (a ++ b) = regWrites a ++ regWrites b := by
  induction a with
  | nil => rfl
  | cons e t ih => cases e <;> simp [regWrites, ih]

theorem memWrites_append (a b : List Event) : memWrites (a ++ b) = memWrites a ++ memWrites b := by
  induction a with
  | nil => rfl
  | cons e t ih => cases e <;> simp [memWrites, ih]

theorem regWrites_polls (busy : List Nat) : regWrites (polls busy) = [] := by
  induction busy with
  | nil => rfl
  | cons v t ih =>
    have : polls (v :: t) = [Event.rd Reg.SR v, Event.nop] ++ polls t := by
      simp [polls, List.flatMap_cons]
    rw [this, regWrites_append, ih]
    rfl

theorem memWrites_polls (busy : List Nat) : memWrites (polls busy) = [] := by
  induction busy with
  | nil => rfl
  | cons v t ih =>
    have : polls (v :: t) = [Event.rd Reg.SR v, Event.nop] ++ polls t := by
      simp [polls, List.flatMap_cons]
    rw [this, memWrites_append, ih]
    rfl

/-- The value `PER | (p << 3) | (b << 13)` for a page below 1024 and a bank
below 2 is the sum of its three disjoint fields. -/
theorem cr_fields (p b : Nat) (hp : p < 1024) (hb : b < 2) :
    FLASH_CR_PER ||| shl32 p 3 ||| shl32 b 13 = 2 + p * 8 + b * 8192 := by
  have h3 : shl32 p 3 = p * 8 := by
    rw [shl32_of_lt p 3 (by omega)]; norm_num
  have h13 : shl32 b 13 = b * 8192 := by
    rw [shl32_of_lt b 13 (by omega)]; norm_num
  have hper : FLASH_CR_PER = 2 := by decide
  have e1 : 2 ^ 3 * p + 2 = 2 ^ 3 * p ||| 2 := Nat.mul_add_lt_is_or (by decide) p
  have e2 : 2 ^ 13 * b + (2 + p * 8) = 2 ^ 13 * b ||| (2 + p * 8) :=
    Nat.mul_add_lt_is_or (by omega) b
  have e1' : 2 ||| p * 8 = 2 + p * 8 := by
    rw [Nat.or_comm, show p * 8 = 2 ^ 3 * p by omega, ← e1]; omega
  rw [h3, h13, hper, e1', Nat.or_comm, show b * 8192 = 2 ^ 13 * b by omega, ← e2]
  omega

set_option maxRecDepth 100000 in
theorem cr_other_bits_clear :
    ∀ p < 1024, ∀ b < 2, (2 + p * 8 + b * 8192) &&& 0xFFFFC005 = 0 := by
  decide

theorem FLASH_MEM.init_run (mem : Nat → Nat) (adr clk fnc : Nat) (g0 : Globals)
    (busy : List Nat) (ready id o0 o1 o2 : Nat) (rest : List Nat)
    (hb : AllBusy busy) (hr : ready &&& FLASH_SR_BSY = 0) :
    Init Region.MEM mem adr clk fnc ⟨g0, busy ++ ready :: id :: o0 :: o1 :: o2 :: rest, []⟩ =
      some (0, ⟨
        { flashType := if id &&& 0xFFF = 0x456 ∨ id &&& 0xFFF = 0x460 ∨ id &&& 0xFFF = 0x466
                       then 0 else 1,
          flashBase := adr,
          flashSize := shl32 (mem FLASHSIZE_BASE &&& 0xFFFF) 10,
          flashBankSize := shl32 (mem FLASHSIZE_BASE &&& 0xFFFF) 10 >>> 1,
          flashBankMode := if o0 &&& FLASH_OPTR_DBANK ≠ 0 then 1 else 0 },
        rest,
        [Event.irqOff, Event.wr Reg.KEYR FLASH_KEY1, Event.wr Reg.KEYR FLASH_KEY2]
        ++ polls busy
        ++ [Event.rd Reg.SR ready, Event.rd Reg.IDCODE id, Event.rd Reg.OPTR o0,
            Event.rd Reg.OPTR o1]
        ++ (if o1 &&& FLASH_OPTR_IDWG_SW = 0 then
              [Event.wr Reg.IWDG_KR 0xAAAA, Event.wr Reg.IWDG_KR 0x5555,
               Event.wr Reg.IWDG_PR 6, Event.wr Reg.IWDG_RLR 4095] else [])
        ++ [Event.rd Reg.OPTR o2]
        ++ (if o2 &&& FLASH_OPTR_WWDG_SW = 0 then
              [Event.wr Reg.WWDG_CFR 0x1FF, Event.wr Reg.WWDG_CR 0x7F] else [])⟩) := by
  have hw := waitBusy_script g0 busy ready (id :: o0 :: o1 :: o2 :: rest)
    [Event.irqOff, Event.wr Reg.KEYR FLASH_KEY1, Event.wr Reg.KEYR FLASH_KEY2] hb hr
  by_cases h1 : o1 &&& FLASH_OPTR_IDWG_SW = 0 <;>
  by_cases h2 : o2 &&& FLASH_OPTR_WWDG_SW = 0 <;>
  by_cases h3 : id &&& 0xFFF = 0x456 ∨ id &&& 0xFFF = 0x460 ∨ id &&& 0xFFF = 0x466 <;>
    simp [Init, GetFlashType, GetFlashBankMode, wr, emit, rd, hw, h1, h2, h3]


/-- A word has a bit in common with the one-bit mask `2^k` exactly when its
bit `k` is set. -/
theorem and_bit_ne_zero (x k : Nat) : x &&& 2 ^ k ≠ 0 ↔ x.testBit k = true := by
  rw [Nat.and_two_pow]
  cases x.testBit k <;> simp

/-- Under a geometry with both sizes in the range 1 .. 512 KiB the resolver
returns a page below 256 and a bank below 2. -/
theorem resolver_bounds (g : Globals) (adr : Nat)
    (hS0 : 0 < g.flashSize) (hS : g.flashSize ≤ 0x80000)
    (hB0 : 0 < g.flashBankSize) (hB : g.flashBankSize ≤ 0x80000) :
    GetFlashPageNum g adr < 256 ∧ GetFlashBankNum g adr < 2 := by
  have h1 : sub32 g.flashSize 1 = g.flashSize - 1 := sub32_of_le _ _ hS0 (by omega)
  have h2 : sub32 g.flashBankSize 1 = g.flashBankSize - 1 := sub32_of_le _ _ hB0 (by omega)
  have k1 := mask_shift_le adr (g.flashSize - 1)
  have k2 := mask_shift_le adr (g.flashBankSize - 1)
  constructor
  · simp only [GetFlashPageNum, h1, h2]
    split_ifs <;> omega
  · simp only [GetFlashBankNum]
    split_ifs <;> omega


/-! ## The loop of `ProgramPage` -/

theorem and_mask8 (x : Nat) (hx : x < 2 ^ 32) : x &&& 0xFFFFFFF8 = x / 8 * 8 := by
  have hm : (0xFFFFFFF8 : Nat) = (2 ^ 29 - 1) <<< 3 := by decide
  have hr : x / 8 * 8 = (x >>> 3) <<< 3 := by
    rw [Nat.shiftLeft_eq, Nat.shiftRight_eq_div_pow]
  rw [hm, hr]
  apply Nat.eq_of_testBit_eq
  intro i
  simp only [Nat.testBit_and, Nat.testBit_shiftLeft, Nat.testBit_shiftRight,
    Nat.testBit_two_pow_sub_one]
  by_cases h3 : 3 ≤ i
  · have e : 3 + (i - 3) = i := by omega
    rw [e]
    by_cases h32 : i < 32
    · have : i - 3 < 29 := by omega
      simp [h3, this]
    · have hlt : x < 2 ^ i :=
        Nat.lt_of_lt_of_le hx (Nat.pow_le_pow_right (by decide) (by omega))
      have : ¬ (i - 3 < 29) := by omega
      simp [h3, this, Nat.testBit_lt_two_pow hlt]
  · simp [h3]

theorem FLASH_MEM.adjustSize_eq (sz : Nat) :
    FLASH_MEM.adjustSize sz = (sz + 7) % 2 ^ 32 / 8 * 8 := by
  have h7 : not32 7 = 0xFFFFFFF8 := by decide
  unfold FLASH_MEM.adjustSize
  rw [h7]
  exact and_mask8 _ (Nat.mod_lt _ (by decide))

theorem script_cons (x : Seg) (xs : List Seg) (t : List Nat) :
    script (x :: xs) ++ t = x.busy ++ x.ready :: x.status :: (script xs ++ t) := by
  simp [script, Seg.words, List.flatMap_cons]

/-- One pass through the loop body. -/
theorem FLASH_MEM.programLoop_step (buf : Nat → Nat) (fuel adr sz off : Nat) (g : Globals)
    (x : Seg) (t : List Nat) (tr : List Event) (hsz : sz ≠ 0) (hx : x.Ends) :
    FLASH_MEM.programLoop buf (fuel + 1) adr sz off
        ⟨g, x.busy ++ x.ready :: x.status :: t, tr⟩ =
      if x.status &&& FLASH_PGERR ≠ 0 then
        some (1, ⟨g, t, tr ++ dwordEvents buf adr off x ++ [Event.wr Reg.SR FLASH_PGERR]⟩)
      else
        FLASH_MEM.programLoop buf fuel (add32 adr 8) (sub32 sz 8) (off + 8)
          ⟨g, t, tr ++ dwordEvents buf adr off x⟩ := by
  have hw := waitBusy_script g x.busy x.ready (x.status :: t)
    (tr ++ [Event.mwr adr (buf off), Event.mwr (add32 adr 4) (buf (off + 4)), Event.dsb])
    hx.1 hx.2
  rw [FLASH_MEM.programLoop]
  simp only [hsz, ne_eq, not_false_eq_true, if_true, mwr, emit, List.append_assoc,
    List.singleton_append, List.cons_append, List.nil_append] at hw ⊢
  rw [hw]
  by_cases h : x.status &&& FLASH_PGERR = 0 <;>
    simp [rd, wr, emit, dwordEvents, h]

/-- A run of the loop over double-words that all end their wait without error
bit, `sz` being exactly eight times their number. -/
theorem FLASH_MEM.programLoop_clean (buf : Nat → Nat) (segs : List Seg) :
    ∀ (fuel adr sz off : Nat) (g : Globals) (c : Nat) (rest : List Nat) (tr : List Event),
      (∀ x ∈ segs, x.Ends ∧ x.Clean) → sz = 8 * segs.length → sz < 2 ^ 32 →
      segs.length < fuel →
      FLASH_MEM.programLoop buf fuel adr sz off ⟨g, script segs ++ c :: rest, tr⟩ =
        some (0, ⟨g, rest, tr ++ loopEvents buf adr off segs
          ++ [Event.rd Reg.CR c, Event.wr Reg.CR (c &&& not32 FLASH_CR_PG)]⟩) := by
  induction segs with
  | nil =>
    intro fuel adr sz off g c rest tr _ hsz _ hf
    obtain ⟨f, rfl⟩ : ∃ f, fuel = f + 1 := ⟨fuel - 1, by simp at hf; omega⟩
    simp at hsz
    subst hsz
    simp [FLASH_MEM.programLoop, script, rd, wr, emit, loopEvents]
  | cons x xs ih =>
    intro fuel adr sz off g c rest tr hall hsz hlt hf
    obtain ⟨f, rfl⟩ : ∃ f, fuel = f + 1 := ⟨fuel - 1, by simp at hf; omega⟩
    have hx := hall x (List.mem_cons_self _ _)
    have hxs : ∀ y ∈ xs, y.Ends ∧ y.Clean := fun y hy => hall y (List.mem_cons_of_mem _ hy)
    simp only [List.length_cons] at hsz hf
    have hclean : ¬ (x.status &&& FLASH_PGERR ≠ 0) := fun h => h hx.2
    have hsub : sub32 sz 8 = 8 * xs.length := by
      rw [sub32_of_le sz 8 (by omega) hlt]; omega
    rw [script_cons, FLASH_MEM.programLoop_step buf f adr sz off g x _ tr (by omega) hx.1,
      if_neg hclean, ih f (add32 adr 8) (sub32 sz 8) (off + 8) g c rest _ hxs hsub (by omega)
        (by omega)]
    simp [loopEvents]

/-- A run of the loop in which the double-words `segs` end without error bit
and the next one, `e`, shows an error bit. -/
theorem FLASH_MEM.programLoop_error (buf : Nat → Nat) (segs : List Seg) :
    ∀ (fuel adr sz off : Nat) (g : Globals) (e : Seg) (rest : List Nat) (tr : List Event),
      (∀ x ∈ segs, x.Ends ∧ x.Clean) → e.Ends → ¬ e.Clean →
      8 * (segs.length + 1) ≤ sz → sz < 2 ^ 32 → segs.length < fuel →
      FLASH_MEM.programLoop buf fuel adr sz off ⟨g, script segs ++ (e.words ++ rest), tr⟩ =
        some (1, ⟨g, rest, tr ++ loopEvents buf adr off (segs ++ [e])
          ++ [Event.wr Reg.SR FLASH_PGERR]⟩) := by
  induction segs with
  | nil =>
    intro fuel adr sz off g e rest tr _ he hne hsz _ hf
    obtain ⟨f, rfl⟩ : ∃ f, fuel = f + 1 := ⟨fuel - 1, by simp at hf; omega⟩
    simp only [List.length_nil] at hsz
    have h1 : script [] ++ (e.words ++ rest) = e.busy ++ e.ready :: e.status :: rest := by
      simp [script, Seg.words]
    have herr : e.status &&& FLASH_PGERR ≠ 0 := hne
    rw [h1, FLASH_MEM.programLoop_step buf f adr sz off g e rest tr (by omega) he, if_pos herr]
    simp [loopEvents]
  | cons x xs ih =>
    intro fuel adr sz off g e rest tr hall he hne hsz hlt hf
    obtain ⟨f, rfl⟩ : ∃ f, fuel = f + 1 := ⟨fuel - 1, by simp at hf; omega⟩
    have hx := hall x (List.mem_cons_self _ _)
    have hxs : ∀ y ∈ xs, y.Ends ∧ y.Clean := fun y hy => hall y (List.mem_cons_of_mem _ hy)
    simp only [List.length_cons] at hsz hf
    have hclean : ¬ (x.status &&& FLASH_PGERR ≠ 0) := fun h => h hx.2
    have hsub : sub32 sz 8 = sz - 8 := sub32_of_le sz 8 (by omega) hlt
    rw [script_cons, FLASH_MEM.programLoop_step buf f adr sz off g x _ tr (by omega) hx.1,
      if_neg hclean, ih f (add32 adr 8) (sub32 sz 8) (off + 8) g e rest _ hxs he hne
        (by omega) (by omega) (by omega)]
    simp [loopEvents]

/-- The stores of consecutive passes through the loop body. -/
theorem memWrites_loopEvents (buf : Nat → Nat) (segs : List Seg) :
    ∀ adr off : Nat, adr < 2 ^ 32 → memWrites (loopEvents buf adr off segs) =
      (List.range segs.length).flatMap fun i =>
        [((adr + 8 * i) % 2 ^ 32, buf (off + 8 * i)),
         ((adr + 8 * i + 4) % 2 ^ 32, buf (off + 8 * i + 4))] := by
  induction segs with
  | nil => intro adr off _; simp [loopEvents, memWrites]
  | cons x xs ih =>
    intro adr off hadr
    have h0 : (adr + 8 * 0) % 2 ^ 32 = adr := by
      rw [Nat.mul_zero, Nat.add_zero]; exact Nat.mod_eq_of_lt hadr
    have h4 : add32 adr 4 = (adr + 8 * 0 + 4) % 2 ^ 32 := rfl
    have h8 : ∀ i : Nat, (add32 adr 8 + 8 * i) % 2 ^ 32 = (adr + 8 * (i + 1)) % 2 ^ 32 := by
      intro i; unfold add32; omega
    have h8' : ∀ i : Nat,
        (add32 adr 8 + 8 * i + 4) % 2 ^ 32 = (adr + 8 * (i + 1) + 4) % 2 ^ 32 := by
      intro i; unfold add32; omega
    have o8 : ∀ i : Nat, off + 8 + 8 * i = off + 8 * (i + 1) := by intro i; omega
    have o8' : ∀ i : Nat, off + 8 + 8 * i + 4 = off + 8 * (i + 1) + 4 := by intro i; omega
    have hlt : add32 adr 8 < 2 ^ 32 := Nat.mod_lt _ (by decide)
    have hmod : adr % 2 ^ 32 = adr := Nat.mod_eq_of_lt hadr
    have hd : memWrites (dwordEvents buf adr off x) =
        [(adr, buf off), ((adr + 4) % 2 ^ 32, buf (off + 4))] := by
      unfold dwordEvents
      rw [memWrites_append, memWrites_append, memWrites_polls]
      rfl
    rw [List.length_cons, List.range_succ_eq_map, List.flatMap_cons, List.flatMap_map]
    show memWrites (dwordEvents buf adr off x ++ loopEvents buf (add32 adr 8) (off + 8) xs) = _
    rw [memWrites_append, hd, ih _ _ hlt]
    simp only [h8, h8', o8, o8', Nat.mul_zero, Nat.add_zero, hmod, Function.comp,
      Nat.succ_eq_add_one, List.cons_append, List.nil_append]

theorem dwordWrites_length (buf : Nat → Nat) (adr n : Nat) :
    (dwordWrites buf adr n).length = 2 * n := by
  induction n with
  | zero => simp [dwordWrites]
  | succ n ih =>
    unfold dwordWrites at ih ⊢
    rw [List.range_succ, List.flatMap_append, List.length_append, ih]
    simp
    omega

theorem dwordWrites_bound (buf : Nat → Nat) (adr n : Nat) :
    ∀ w ∈ dwordWrites buf adr n, w.1 < adr + 8 * n := by
  intro w hw
  unfold dwordWrites at hw
  rw [List.mem_flatMap] at hw
  obtain ⟨i, hi, hw⟩ := hw
  rw [List.mem_range] at hi
  have h1 := Nat.mod_le (adr + 8 * i) (2 ^ 32)
  have h2 := Nat.mod_le (adr + 8 * i + 4) (2 ^ 32)
  simp only [List.mem_cons, List.mem_singleton, List.not_mem_nil, or_false] at hw
  rcases hw with rfl | rfl <;> simp only <;> omega

theorem memWrites_loopEvents_zero (buf : Nat → Nat) (segs : List Seg) (adr : Nat)
    (hadr : adr < 2 ^ 32) :
    memWrites (loopEvents buf adr 0 segs) = dwordWrites buf adr segs.length := by
  rw [memWrites_loopEvents buf segs adr 0 hadr]
  simp [dwordWrites]

/-- A complete run of `ProgramPage` in which no double-word shows an error. -/
theorem FLASH_MEM.programPage_clean (adr sz : Nat) (buf : Nat → Nat) (g : Globals)
    (segs : List Seg) (c : Nat) (rest : List Nat) (fuel : Nat)
    (hlen : segs.length = FLASH_MEM.adjustSize sz / 8)
    (hall : ∀ x ∈ segs, x.Ends ∧ x.Clean) (hf : segs.length < fuel) :
    FLASH_MEM.ProgramPage fuel adr sz buf ⟨g, script segs ++ c :: rest, []⟩ =
      some (0, ⟨g, rest,
        [Event.wr Reg.SR FLASH_PGERR, Event.wr Reg.CR FLASH_CR_PG]
        ++ loopEvents buf adr 0 segs
        ++ [Event.rd Reg.CR c, Event.wr Reg.CR (c &&& not32 FLASH_CR_PG)]⟩) := by
  have he := FLASH_MEM.adjustSize_eq sz
  have hlt : (sz + 7) % 2 ^ 32 < 2 ^ 32 := Nat.mod_lt _ (by decide)
  have h8 : FLASH_MEM.adjustSize sz = 8 * segs.length := by omega
  unfold FLASH_MEM.ProgramPage
  simp only [wr, emit, List.nil_append]
  exact FLASH_MEM.programLoop_clean buf segs fuel adr _ 0 g c rest _ hall h8 (by omega) hf

/-- A complete run of `ProgramPage` that stops at the first double-word showing
an error. -/
theorem FLASH_MEM.programPage_error (adr sz : Nat) (buf : Nat → Nat) (g : Globals)
    (segs : List Seg) (e : Seg) (rest : List Nat) (fuel : Nat)
    (hk : segs.length < FLASH_MEM.adjustSize sz / 8)
    (hall : ∀ x ∈ segs, x.Ends ∧ x.Clean) (he : e.Ends) (herr : ¬ e.Clean)
    (hf : segs.length < fuel) :
    FLASH_MEM.ProgramPage fuel adr sz buf ⟨g, script segs ++ (e.words ++ rest), []⟩ =
      some (1, ⟨g, rest,
        [Event.wr Reg.SR FLASH_PGERR, Event.wr Reg.CR FLASH_CR_PG]
        ++ loopEvents buf adr 0 (segs ++ [e])
        ++ [Event.wr Reg.SR FLASH_PGERR]⟩) := by
  have hq := FLASH_MEM.adjustSize_eq sz
  have hlt : (sz + 7) % 2 ^ 32 < 2 ^ 32 := Nat.mod_lt _ (by decide)
  unfold FLASH_MEM.ProgramPage
  simp only [wr, emit, List.nil_append]
  exact FLASH_MEM.programLoop_error buf segs fuel adr _ 0 g e rest _ hall he herr
    (by omega) (by omega) hf


/-! ## Complete runs of Init -/

/-- A complete run of `Init` in any build. -/
theorem init_run_all (region : Region) (mem : Nat → Nat) (adr clk fnc : Nat) (g0 : Globals)
    (busy : List Nat) (ready id o0 o1 o2 : Nat) (rest : List Nat)
    (hb : AllBusy busy) (hr : ready &&& FLASH_SR_BSY = 0) :
    Init region mem adr clk fnc
        ⟨g0, busy ++ ready :: (probeTape region id o0 ++ o1 :: o2 :: rest), []⟩ =
      some (0, ⟨initGlobals region mem adr id o0 g0, rest,
        Event.irqOff :: keyWrites region ++ polls busy ++ [Event.rd Reg.SR ready]
        ++ probeEvents region id o0 ++ [Event.rd Reg.OPTR o1]
        ++ (if o1 &&& FLASH_OPTR_IDWG_SW = 0 then
              iwdgWrites.map (fun w => Event.wr w.1 w.2) else [])
        ++ [Event.rd Reg.OPTR o2]
        ++ (if o2 &&& FLASH_OPTR_WWDG_SW = 0 then
              wwdgWrites.map (fun w => Event.wr w.1 w.2) else [])⟩) := by
  cases region
  · have hw := waitBusy_script g0 busy ready (id :: o0 :: o1 :: o2 :: rest)
      [Event.irqOff, Event.wr Reg.KEYR FLASH_KEY1, Event.wr Reg.KEYR FLASH_KEY2] hb hr
    by_cases h1 : o1 &&& FLASH_OPTR_IDWG_SW = 0 <;>
    by_cases h2 : o2 &&& FLASH_OPTR_WWDG_SW = 0 <;>
    by_cases h3 : id &&& 0xFFF = 0x456 ∨ id &&& 0xFFF = 0x460 ∨ id &&& 0xFFF = 0x466 <;>
      simp [Init, GetFlashType, GetFlashBankMode, wr, emit, rd, hw, h1, h2, h3, probeTape,
        probeEvents, keyWrites, initGlobals, iwdgWrites, wwdgWrites]
  · have hw := waitBusy_script g0 busy ready (o1 :: o2 :: rest)
      [Event.irqOff, Event.wr Reg.KEYR FLASH_KEY1, Event.wr Reg.KEYR FLASH_KEY2] hb hr
    by_cases h1 : o1 &&& FLASH_OPTR_IDWG_SW = 0 <;>
    by_cases h2 : o2 &&& FLASH_OPTR_WWDG_SW = 0 <;>
      simp [Init, wr, emit, rd, hw, h1, h2, probeTape,
        probeEvents, keyWrites, initGlobals, iwdgWrites, wwdgWrites]
  · have hw := waitBusy_script g0 busy ready (o1 :: o2 :: rest)
      [Event.irqOff, Event.wr Reg.KEYR FLASH_KEY1, Event.wr Reg.KEYR FLASH_KEY2,
       Event.wr Reg.OPTKEYR FLASH_OPTKEY1, Event.wr Reg.OPTKEYR FLASH_OPTKEY2] hb hr
    by_cases h1 : o1 &&& FLASH_OPTR_IDWG_SW = 0 <;>
    by_cases h2 : o2 &&& FLASH_OPTR_WWDG_SW = 0 <;>
      simp [Init, wr, emit, rd, hw, h1, h2, probeTape,
        probeEvents, keyWrites, initGlobals, iwdgWrites, wwdgWrites]

theorem regWrites_map_wr (ws : List (Reg × Nat)) :
    regWrites (ws.map (fun w => Event.wr w.1 w.2)) = ws := by
  induction ws with
  | nil => rfl
  | cons w t ih => simp [regWrites, ih]

/-- A word without any of the ten error bits has no bit in common with
`FLASH_PGERR`. -/
theorem and_pgerr_eq_zero (st : Nat) (h : ∀ i ∈ errorBits, st.testBit i = false) :
    st &&& FLASH_PGERR = 0 := by
  apply Nat.eq_of_testBit_eq
  intro i
  rw [Nat.testBit_and, Nat.zero_testBit]
  by_cases hi : i < 16
  · have hm : ∀ j, j < 16 → j ∉ errorBits → Nat.testBit FLASH_PGERR j = false := by decide
    by_cases hmem : i ∈ errorBits
    · rw [h i hmem, Bool.false_and]
    · rw [hm i hi hmem, Bool.and_false]
  · have hlt : FLASH_PGERR < 2 ^ i :=
      Nat.lt_of_lt_of_le (by decide : FLASH_PGERR < 2 ^ 16)
        (Nat.pow_le_pow_right (by decide) (by omega))
    rw [Nat.testBit_lt_two_pow hlt, Bool.and_false]


theorem filter_isKeyWrite_polls (busy : List Nat) : (polls busy).filter isKeyWrite = [] := by
  induction busy with
  | nil => rfl
  | cons v t ih =>
    have : polls (v :: t) = [Event.rd Reg.SR v, Event.nop] ++ polls t := by
      simp [polls, List.flatMap_cons]
    rw [this, List.filter_append, ih]
    rfl

/-- The register writes of a complete run of `Init`. -/
theorem regWrites_init (region : Region) (busy : List Nat) (ready id o0 o1 o2 : Nat) :
    regWrites (Event.irqOff :: keyWrites region ++ polls busy ++ [Event.rd Reg.SR ready]
        ++ probeEvents region id o0 ++ [Event.rd Reg.OPTR o1]
        ++ (if o1 &&& FLASH_OPTR_IDWG_SW = 0 then
              iwdgWrites.map (fun w => Event.wr w.1 w.2) else [])
        ++ [Event.rd Reg.OPTR o2]
        ++ (if o2 &&& FLASH_OPTR_WWDG_SW = 0 then
              wwdgWrites.map (fun w => Event.wr w.1 w.2) else []))
      = regWrites (keyWrites region)
        ++ (if o1 &&& FLASH_OPTR_IDWG_SW = 0 then iwdgWrites else [])
        ++ (if o2 &&& FLASH_OPTR_WWDG_SW = 0 then wwdgWrites else []) := by
  have hp : regWrites (probeEvents region id o0) = [] := by
    cases region <;> simp [probeEvents, regWrites]
  have h1 : regWrites (if o1 &&& FLASH_OPTR_IDWG_SW = 0 then
      iwdgWrites.map (fun w => Event.wr w.1 w.2) else [])
      = (if o1 &&& FLASH_OPTR_IDWG_SW = 0 then iwdgWrites else []) := by
    split_ifs
    · exact regWrites_map_wr _
    · rfl
  have h2 : regWrites (if o2 &&& FLASH_OPTR_WWDG_SW = 0 then
      wwdgWrites.map (fun w => Event.wr w.1 w.2) else [])
      = (if o2 &&& FLASH_OPTR_WWDG_SW = 0 then wwdgWrites else []) := by
    split_ifs
    · exact regWrites_map_wr _
    · rfl
  rw [show ∀ l : List Event, Event.irqOff :: keyWrites region ++ l
        = [Event.irqOff] ++ (keyWrites region ++ l) from fun l => rfl]
  simp only [List.append_assoc]
  simp only [regWrites_append, regWrites_polls, hp, h1, h2]
  simp [regWrites]


/-! ## The option-byte operations -/

theorem FLASH_OPT.programValues_eq_layout (fam : Family) (db : Bool) (buf : Nat → Nat) :
    FLASH_OPT.programValues fam db buf
      = (optionLayout fam db).map (fun f => (f.1, buf f.2.1 &&& f.2.2)) := by
  cases fam <;> cases db <;> rfl

/-- The register writes of a complete run of the option-byte `ProgramPage`. -/
theorem FLASH_OPT.regWrites_programPage (fam : Family) (db : Bool) (buf : Nat → Nat)
    (busy : List Nat) (ready st w : Nat) :
    regWrites (Event.wr Reg.SR FLASH_PGERR ::
          (FLASH_OPT.programValues fam db buf).map (fun w => Event.wr w.1 w.2)
        ++ [Event.wr Reg.CR FLASH_CR_OPTSTRT, Event.dsb]
        ++ polls busy ++ [Event.rd Reg.SR ready, Event.rd Reg.SR st]
        ++ (if st &&& FLASH_PGERR ≠ 0 then
              [Event.rd Reg.SR w, Event.wr Reg.SR (w ||| FLASH_PGERR)] else []))
      = (Reg.SR, FLASH_PGERR) :: FLASH_OPT.programValues fam db buf
        ++ [(Reg.CR, FLASH_CR_OPTSTRT)]
        ++ (if st &&& FLASH_PGERR ≠ 0 then [(Reg.SR, w ||| FLASH_PGERR)] else []) := by
  rw [show ∀ l : List Event, Event.wr Reg.SR FLASH_PGERR :: l
        = [Event.wr Reg.SR FLASH_PGERR] ++ l from fun l => rfl]
  simp only [List.append_assoc]
  simp only [regWrites_append, regWrites_polls, regWrites_map_wr]
  split_ifs <;> simp [regWrites]

/-- The register writes of a complete run of the option-byte `EraseChip`. -/
theorem FLASH_OPT.regWrites_eraseChip (fam : Family) (db : Bool)
    (busy : List Nat) (ready st : Nat) :
    regWrites (Event.wr Reg.SR FLASH_PGERR ::
          (FLASH_OPT.eraseValues fam db).map (fun w => Event.wr w.1 w.2)
        ++ [Event.wr Reg.CR FLASH_CR_OPTSTRT, Event.dsb]
        ++ polls busy ++ [Event.rd Reg.SR ready, Event.rd Reg.SR st]
        ++ (if st &&& FLASH_PGERR ≠ 0 then [Event.wr Reg.SR FLASH_PGERR] else []))
      = (Reg.SR, FLASH_PGERR) :: FLASH_OPT.eraseValues fam db
        ++ [(Reg.CR, FLASH_CR_OPTSTRT)]
        ++ (if st &&& FLASH_PGERR ≠ 0 then [(Reg.SR, FLASH_PGERR)] else []) := by
  rw [show ∀ l : List Event, Event.wr Reg.SR FLASH_PGERR :: l
        = [Event.wr Reg.SR FLASH_PGERR] ++ l from fun l => rfl]
  simp only [List.append_assoc]
  simp only [regWrites_append, regWrites_polls, regWrites_map_wr]
  split_ifs <;> simp [regWrites]


/-! ## The page selected by the resolver contains the address -/

/-- The resolver on an aligned geometry given abstractly: `S = 2 * B`, the base
a multiple of `S`, and masking with `S - 1` and `B - 1` being the remainders
modulo `S` and `B`. -/
theorem resolver_page_contains (ty base S B mode m adr : Nat)
    (hSB : S = 2 * B) (hbase : base = S * m)
    (hlo : base ≤ adr) (hhi : adr < base + S) (hwrap : base + S ≤ 2 ^ 32)
    (modS : adr &&& sub32 S 1 = adr % S) (modB : adr &&& sub32 B 1 = adr % B) :
    base + GetFlashBankNum ⟨ty, base, S, B, mode⟩ adr * B
        + GetFlashPageNum ⟨ty, base, S, B, mode⟩ adr * 2048 ≤ adr ∧
    adr < base + GetFlashBankNum ⟨ty, base, S, B, mode⟩ adr * B
        + GetFlashPageNum ⟨ty, base, S, B, mode⟩ adr * 2048 + 2048 := by
  have hadd : add32 base B = base + B := add32_of_lt _ _ (by omega)
  have hrS : adr % S = adr - base := by
    have e : adr = S * m + (adr - base) := by omega
    have hlt : adr - base < S := by omega
    calc adr % S = (S * m + (adr - base)) % S := by rw [← e]
      _ = (adr - base) % S := Nat.mul_add_mod _ _ _
      _ = adr - base := Nat.mod_eq_of_lt hlt
  have hrB : (adr < base + B → adr % B = adr - base) ∧
      (base + B ≤ adr → adr % B = adr - base - B) := by
    constructor
    · intro h
      have e : adr = B * (2 * m) + (adr - base) := by
        have : B * (2 * m) = S * m := by rw [hSB]; ring
        omega
      have hlt : adr - base < B := by omega
      calc adr % B = (B * (2 * m) + (adr - base)) % B := by rw [← e]
        _ = (adr - base) % B := Nat.mul_add_mod _ _ _
        _ = adr - base := Nat.mod_eq_of_lt hlt
    · intro h
      have e : adr = B * (2 * m + 1) + (adr - base - B) := by
        have : B * (2 * m + 1) = S * m + B := by rw [hSB]; ring
        omega
      have hlt : adr - base - B < B := by omega
      calc adr % B = (B * (2 * m + 1) + (adr - base - B)) % B := by rw [← e]
        _ = (adr - base - B) % B := Nat.mul_add_mod _ _ _
        _ = adr - base - B := Nat.mod_eq_of_lt hlt
  simp only [GetFlashBankNum, GetFlashPageNum, hadd, modS, modB, Nat.shiftRight_eq_div_pow]
  norm_num only
  by_cases hT : ty = 1
  · by_cases hM : mode = 1 ∨ S = 524288
    · by_cases hge : adr ≥ base + B
      · simp only [hT, hM, hge, if_true]
        rw [hrB.2 hge]
        omega
      · simp only [hT, hM, hge, if_true, if_false]
        rw [hrB.1 (by omega)]
        omega
    · simp only [hT, hM, if_true, if_false]
      rw [hrS]
      omega
  · simp only [hT, if_false]
    rw [hrS]
    omega


/-! ## Claims C1-C3: the main-memory / OTP ProgramPage -/

/-- C1: if the double-words 0..k-1 end their wait without error bit and the
status word read after the wait of double-word k (k below the number of
double-words of the page) has a bit of FLASH_PGERR set, then ProgramPage
returns 1 and its stores are exactly those of the double-words 0..k, so no
store goes to an address at or above adr + 8(k+1). -/
theorem C1_programPage_stops_at_first_error (adr sz : Nat) (buf : Nat → Nat)
    (g : Globals) (segs : List Seg) (e : Seg) (rest : List Nat) (fuel : Nat)
    (hadr : adr < 2 ^ 32)
    (hk : segs.length < FLASH_MEM.adjustSize sz / 8)
    (hall : ∀ x ∈ segs, x.Ends ∧ x.Clean)
    (he : e.Ends) (herr : e.status &&& FLASH_PGERR ≠ 0)
    (hf : segs.length < fuel) :
    ∃ s, FLASH_MEM.ProgramPage fuel adr sz buf ⟨g, script segs ++ (e.words ++ rest), []⟩
        = some (1, s) ∧
      memWrites s.trace = dwordWrites buf adr (segs.length + 1) ∧
      (memWrites s.trace).length = 2 * (segs.length + 1) ∧
      (∀ w ∈ memWrites s.trace, w.1 < adr + 8 * (segs.length + 1)) ∧
      s.tape = rest := by
  have hrun := FLASH_MEM.programPage_error adr sz buf g segs e rest fuel hk hall he herr hf
  have hmw : memWrites ([Event.wr Reg.SR FLASH_PGERR, Event.wr Reg.CR FLASH_CR_PG]
        ++ loopEvents buf adr 0 (segs ++ [e]) ++ [Event.wr Reg.SR FLASH_PGERR])
      = dwordWrites buf adr (segs.length + 1) := by
    rw [memWrites_append, memWrites_append, memWrites_loopEvents_zero buf _ adr hadr]
    simp [memWrites]
  refine ⟨_, hrun, hmw, ?_, ?_, rfl⟩
  · simp only [hmw, dwordWrites_length]
  · simp only [hmw]
    exact dwordWrites_bound buf adr _

/-- C1 on the scenario ProgramPage(adr, 10, buf): the second double-word shows
WRPERR (bit 4), so exactly two double-words are stored. -/
theorem C1_programPage_stops_at_first_error_witness :
    ∃ s, FLASH_MEM.ProgramPage 4 0x08000400 10 (fun o => 0x11110000 + o)
          ⟨⟨0, 0x08000000, 0x10000, 0x8000, 0⟩,
            script [⟨[0x10000], 0, 0⟩] ++ ((⟨[0x10000, 0x10000], 0, 0x10⟩ : Seg).words ++ [0]),
            []⟩ = some (1, s) ∧
      memWrites s.trace = dwordWrites (fun o => 0x11110000 + o) 0x08000400
        ([(⟨[0x10000], 0, 0⟩ : Seg)].length + 1) ∧
      (memWrites s.trace).length = 2 * ([(⟨[0x10000], 0, 0⟩ : Seg)].length + 1) ∧
      (∀ w ∈ memWrites s.trace, w.1 < 0x08000400 + 8 * ([(⟨[0x10000], 0, 0⟩ : Seg)].length + 1)) ∧
      s.tape = [0] :=
  C1_programPage_stops_at_first_error 0x08000400 10 (fun o => 0x11110000 + o)
    ⟨0, 0x08000000, 0x10000, 0x8000, 0⟩ [⟨[0x10000], 0, 0⟩] ⟨[0x10000, 0x10000], 0, 0x10⟩ [0] 4
    (by decide) (by decide) (by decide) (by decide) (by decide) (by decide)

/-- C2 (as stated) fails: for sz = 0xFFFFFFFF the sum sz + 7 wraps, the size
iterated over is 0, which is below sz, and ProgramPage returns 0 without
programming any double-word. -/
theorem C2_counterexample :
    FLASH_MEM.adjustSize 0xFFFFFFFF = 0 ∧
    ¬ (0xFFFFFFFF ≤ FLASH_MEM.adjustSize 0xFFFFFFFF) ∧
    (FLASH_MEM.ProgramPage 1 0x08000000 0xFFFFFFFF (fun _ => 0)
        ⟨⟨0, 0x08000000, 0x10000, 0x8000, 0⟩, [1], []⟩).map
      (fun r => (r.1, memWrites r.2.trace)) = some (0, []) ∧
    (0xFFFFFFFF + 7) / 8 ≠ 0 := by
  decide

/-- C2 (amended): for every requested size sz with sz <= 0xFFFFFFF8 (so that
sz + 7 does not wrap in 32 bits) the size ProgramPage iterates over is the
smallest multiple of 8 that is at least sz, and when no double-word shows an
error it returns 0 having programmed exactly ceil(sz / 8) double-words; for
sz = 10 the size is 16 and two double-words are programmed. -/
theorem C2_size_rounding (adr sz : Nat) (buf : Nat → Nat) (g : Globals)
    (segs : List Seg) (c : Nat) (rest : List Nat) (fuel : Nat)
    (hsz : sz ≤ 0xFFFFFFF8) (hadr : adr < 2 ^ 32)
    (hlen : segs.length = (sz + 7) / 8)
    (hall : ∀ x ∈ segs, x.Ends ∧ x.Clean) (hf : segs.length < fuel) :
    8 ∣ FLASH_MEM.adjustSize sz ∧ sz ≤ FLASH_MEM.adjustSize sz ∧
    (∀ m, 8 ∣ m → sz ≤ m → FLASH_MEM.adjustSize sz ≤ m) ∧
    (∃ s, FLASH_MEM.ProgramPage fuel adr sz buf ⟨g, script segs ++ c :: rest, []⟩
        = some (0, s) ∧
      (memWrites s.trace).length = 2 * ((sz + 7) / 8) ∧ s.tape = rest) ∧
    FLASH_MEM.adjustSize 10 = 16 ∧ (10 + 7) / 8 = 2 := by
  have hq := FLASH_MEM.adjustSize_eq sz
  have hmod : (sz + 7) % 2 ^ 32 = sz + 7 := Nat.mod_eq_of_lt (by omega)
  rw [hmod] at hq
  have hlen' : segs.length = FLASH_MEM.adjustSize sz / 8 := by omega
  refine ⟨by omega, by omega, fun m hm hle => by omega, ?_, by decide, by decide⟩
  refine ⟨_, FLASH_MEM.programPage_clean adr sz buf g segs c rest fuel hlen' hall hf, ?_, rfl⟩
  simp only
  rw [memWrites_append, memWrites_append, memWrites_loopEvents_zero buf _ adr hadr,
    List.length_append, List.length_append, dwordWrites_length, hlen]
  simp [memWrites]

/-- C2 (amended) on sz = 10: two double-words are programmed. -/
theorem C2_size_rounding_witness :
    8 ∣ FLASH_MEM.adjustSize 10 ∧ 10 ≤ FLASH_MEM.adjustSize 10 ∧
    (∀ m, 8 ∣ m → 10 ≤ m → FLASH_MEM.adjustSize 10 ≤ m) ∧
    (∃ s, FLASH_MEM.ProgramPage 3 0x08000400 10 (fun o => 0x11110000 + o)
          ⟨⟨0, 0x08000000, 0x10000, 0x8000, 0⟩,
            script [⟨[0x10000], 0, 0⟩, ⟨[], 1, 1⟩] ++ 1 :: [], []⟩ = some (0, s) ∧
      (memWrites s.trace).length = 2 * ((10 + 7) / 8) ∧ s.tape = []) ∧
    FLASH_MEM.adjustSize 10 = 16 ∧ (10 + 7) / 8 = 2 :=
  C2_size_rounding 0x08000400 10 (fun o => 0x11110000 + o)
    ⟨0, 0x08000000, 0x10000, 0x8000, 0⟩ [⟨[0x10000], 0, 0⟩, ⟨[], 1, 1⟩] 1 [] 3
    (by decide) (by decide) (by decide) (by decide) (by decide)

/-- C3: for every 32-bit adr, every sz and every buffer, when every wait ends
and every status word read after a wait shows no aggregate-error bit,
ProgramPage stores, for i = 0, ..., n-1 in increasing order with
n = ((sz + 7) & ~7) / 8, the buffer word at offset 8i to adr + 8i and then the
buffer word at offset 8i + 4 to adr + 8i + 4, performs no other store, ends by
writing the control register value it read with the PG bit cleared, and
returns 0. -/
theorem C3_programPage_clean_run (adr sz : Nat) (buf : Nat → Nat) (g : Globals)
    (segs : List Seg) (c : Nat) (rest : List Nat) (fuel : Nat)
    (hadr : adr < 2 ^ 32)
    (hlen : segs.length = FLASH_MEM.adjustSize sz / 8)
    (hall : ∀ x ∈ segs, x.Ends ∧ x.Clean) (hf : segs.length < fuel) :
    ∃ s pre, FLASH_MEM.ProgramPage fuel adr sz buf ⟨g, script segs ++ c :: rest, []⟩
        = some (0, s) ∧
      memWrites s.trace = dwordWrites buf adr (FLASH_MEM.adjustSize sz / 8) ∧
      s.trace = pre ++ [Event.rd Reg.CR c, Event.wr Reg.CR (c &&& not32 FLASH_CR_PG)] ∧
      Nat.testBit (c &&& not32 FLASH_CR_PG) 0 = false ∧
      (∀ i, 0 < i → i < 32 → Nat.testBit (c &&& not32 FLASH_CR_PG) i = Nat.testBit c i) ∧
      s.tape = rest := by
  have hrun := FLASH_MEM.programPage_clean adr sz buf g segs c rest fuel hlen hall hf
  refine ⟨_, _, hrun, ?_, rfl, ?_, ?_, rfl⟩
  · simp only
    rw [memWrites_append, memWrites_append, memWrites_loopEvents_zero buf _ adr hadr, hlen]
    simp [memWrites]
  · rw [Nat.testBit_and]
    have : Nat.testBit (not32 FLASH_CR_PG) 0 = false := by decide
    rw [this, Bool.and_false]
  · intro i h0 h32
    rw [Nat.testBit_and]
    have : Nat.testBit (not32 FLASH_CR_PG) i = true := by
      revert h0
      revert i h32
      decide
    rw [this, Bool.and_true]

/-- C3 on sz = 10 with two clean double-words. -/
theorem C3_programPage_clean_run_witness :
    ∃ s pre, FLASH_MEM.ProgramPage 3 0x08000400 10 (fun o => 0x11110000 + o)
          ⟨⟨0, 0x08000000, 0x10000, 0x8000, 0⟩,
            script [⟨[0x10000], 0, 0⟩, ⟨[], 1, 1⟩] ++ 1 :: [], []⟩ = some (0, s) ∧
      memWrites s.trace = dwordWrites (fun o => 0x11110000 + o) 0x08000400
        (FLASH_MEM.adjustSize 10 / 8) ∧
      s.trace = pre ++ [Event.rd Reg.CR 1, Event.wr Reg.CR (1 &&& not32 FLASH_CR_PG)] ∧
      Nat.testBit (1 &&& not32 FLASH_CR_PG) 0 = false ∧
      (∀ i, 0 < i → i < 32 → Nat.testBit (1 &&& not32 FLASH_CR_PG) i = Nat.testBit 1 i) ∧
      s.tape = [] :=
  C3_programPage_clean_run 0x08000400 10 (fun o => 0x11110000 + o)
    ⟨0, 0x08000000, 0x10000, 0x8000, 0⟩ [⟨[0x10000], 0, 0⟩, ⟨[], 1, 1⟩] 1 [] 3
    (by decide) (by decide) (by decide) (by decide)

/-! ## Claim C4: the status check of the erase and option-byte operations -/

/-- C4: for main-memory EraseChip, main-memory EraseSector, option-byte
EraseChip and option-byte ProgramPage, whenever the busy bits clear after
finitely many polls, the operation returns 1 exactly when the status word read
after the busy wait has a bit in common with FLASH_PGERR = 0xC3FA and 0
otherwise, and in the failing case its last action is a write to the status
register of a value containing every bit of that mask. -/
theorem C4_status_check (g : Globals) (adr sz c : Nat) (buf : Nat → Nat) (fam : Family)
    (db : Bool) (busy : List Nat) (ready st w : Nat) (rest : List Nat)
    (hb : AllBusy busy) (hr : ready &&& FLASH_SR_BSY = 0) :
    FLASH_PGERR = 0xC3FA ∧
    ReportsStatus (FLASH_MEM.EraseChip ⟨g, c :: (busy ++ ready :: st :: rest), []⟩) st ∧
    ReportsStatus (FLASH_MEM.EraseSector adr ⟨g, c :: (busy ++ ready :: st :: rest), []⟩) st ∧
    ReportsStatus (FLASH_OPT.EraseChip fam db ⟨g, busy ++ ready :: st :: rest, []⟩) st ∧
    ReportsStatus
      (FLASH_OPT.ProgramPage fam db adr sz buf ⟨g, busy ++ ready :: st :: w :: rest, []⟩) st := by
  have hm : FLASH_PGERR &&& FLASH_PGERR = FLASH_PGERR := by decide
  refine ⟨by decide, ?_, ?_, ?_, ?_⟩
  · refine ⟨_, FLASH_MEM.eraseChip_run g c busy ready st rest hb hr, fun h => ?_⟩
    exact ⟨FLASH_PGERR, by simp only [if_pos h]; exact List.getLast?_concat _, hm⟩
  · refine ⟨_, FLASH_MEM.eraseSector_run g adr c busy ready st rest hb hr, fun h => ?_⟩
    exact ⟨FLASH_PGERR, by simp only [if_pos h]; exact List.getLast?_concat _, hm⟩
  · refine ⟨_, FLASH_OPT.optEraseChip_run fam db g busy ready st rest hb hr, fun h => ?_⟩
    exact ⟨FLASH_PGERR, by simp only [if_pos h]; exact List.getLast?_concat _, hm⟩
  · refine ⟨_, FLASH_OPT.optProgramPage_run fam db adr sz buf g busy ready st w rest hb hr,
      fun h => ?_⟩
    refine ⟨w ||| FLASH_PGERR, ?_, or_and_cancel w FLASH_PGERR⟩
    simp only [if_pos h]
    rw [show ∀ (l : List Event) (a b : Event), l ++ [a, b] = (l ++ [a]) ++ [b] from
      fun l a b => by simp]
    exact List.getLast?_concat _

/-- C4 on a run with one busy poll and a status word showing WRPERR. -/
theorem C4_status_check_witness :
    FLASH_PGERR = 0xC3FA ∧
    ReportsStatus (FLASH_MEM.EraseChip
      ⟨⟨1, 0x08000000, 0x40000, 0x20000, 1⟩, 0x8004 :: ([0x10000] ++ 0 :: 0x10 :: []), []⟩) 0x10 ∧
    ReportsStatus (FLASH_MEM.EraseSector 0x08000800
      ⟨⟨1, 0x08000000, 0x40000, 0x20000, 1⟩, 0x8004 :: ([0x10000] ++ 0 :: 0x10 :: []), []⟩) 0x10 ∧
    ReportsStatus (FLASH_OPT.EraseChip Family.G0x1 true
      ⟨⟨1, 0x08000000, 0x40000, 0x20000, 1⟩, [0x10000] ++ 0 :: 0x10 :: [], []⟩) 0x10 ∧
    ReportsStatus
      (FLASH_OPT.ProgramPage Family.G0x1 true 0x1FFF7800 56 (fun _ => 0xFFFFFFFF)
        ⟨⟨1, 0x08000000, 0x40000, 0x20000, 1⟩, [0x10000] ++ 0 :: 0x10 :: 0x10 :: [], []⟩) 0x10 :=
  C4_status_check ⟨1, 0x08000000, 0x40000, 0x20000, 1⟩ 0x08000800 56 0x8004
    (fun _ => 0xFFFFFFFF) Family.G0x1 true [0x10000] 0 0x10 0x10 [] (by decide) (by decide)

/-! ## Claims C5-C8: the address resolver -/

/-- C5 (as stated) fails: with flashSize = 512 KiB but the single-bank chip
family (flashType = 0) the address 0x08040000, which is at or above
flashBase + flashBankSize, resolves to bank 0 and to the size-relative page 128,
not to bank 1 and the bank-relative page 0. -/
theorem C5_counterexample :
    (⟨0, 0x08000000, 0x80000, 0x40000, 1⟩ : Globals).flashSize = 0x80000 ∧
    0x08040000 ≥ 0x08000000 + 0x40000 ∧
    GetFlashBankNum ⟨0, 0x08000000, 0x80000, 0x40000, 1⟩ 0x08040000 = 0 ∧
    GetFlashPageNum ⟨0, 0x08000000, 0x80000, 0x40000, 1⟩ 0x08040000 = 128 ∧
    (0x08040000 &&& (0x40000 - 1)) >>> 11 = 0 := by
  decide

/-- C5 (amended): when the stored flash size is 512 KiB and the chip family is
the dual-bank one (flashType = 1), then for every address and every value of
the bank mode the resolver uses dual-bank addressing: the bank number is 1
exactly when adr >= flashBase + flashBankSize (else 0) and the page number is
(adr & (flashBankSize - 1)) >> 11, the sum and the difference being taken in
32-bit arithmetic. -/
theorem C5_512K_dual_bank_addressing (g : Globals) (adr : Nat)
    (hT : g.flashType = 1) (hS : g.flashSize = 0x80000) :
    GetFlashBankNum g adr = (if adr ≥ add32 g.flashBase g.flashBankSize then 1 else 0) ∧
    GetFlashPageNum g adr = (adr &&& sub32 g.flashBankSize 1) >>> 11 ∧
    -- without wrap-around the sum and the difference are the plain ones
    (g.flashBase + g.flashBankSize < 2 ^ 32 →
      (GetFlashBankNum g adr = 1 ↔ adr ≥ g.flashBase + g.flashBankSize) ∧
      (GetFlashBankNum g adr = 0 ↔ adr < g.flashBase + g.flashBankSize)) ∧
    (0 < g.flashBankSize → g.flashBankSize < 2 ^ 32 →
      GetFlashPageNum g adr = (adr &&& (g.flashBankSize - 1)) >>> 11) := by
  have hbank : GetFlashBankNum g adr
      = (if adr ≥ add32 g.flashBase g.flashBankSize then 1 else 0) := by
    simp [GetFlashBankNum, hT, hS]
  have hpage : GetFlashPageNum g adr = (adr &&& sub32 g.flashBankSize 1) >>> 11 := by
    simp [GetFlashPageNum, hT, hS]
  refine ⟨hbank, hpage, fun hlt => ?_, fun h0 h32 => ?_⟩
  · rw [hbank, add32_of_lt _ _ hlt]
    by_cases h : adr ≥ g.flashBase + g.flashBankSize
    · rw [if_pos h]
      exact ⟨⟨fun _ => h, fun _ => rfl⟩, ⟨fun h' => absurd h' (by decide), fun h' => by omega⟩⟩
    · rw [if_neg h]
      exact ⟨⟨fun h' => absurd h' (by decide), fun h' => absurd h' h⟩,
        ⟨fun _ => by omega, fun _ => rfl⟩⟩
  · rw [hpage, sub32_of_le _ _ h0 h32]

/-- C5 (amended) on the 512 KiB part of the file header with bank mode 0, at the
first address of the second bank: bank 1, bank-relative page 0. -/
theorem C5_512K_dual_bank_addressing_witness :
    (GetFlashBankNum ⟨1, 0x08000000, 0x80000, 0x40000, 0⟩ 0x08040000 = 1
      ↔ 0x08040000 ≥ 0x08000000 + 0x40000) ∧
    GetFlashPageNum ⟨1, 0x08000000, 0x80000, 0x40000, 0⟩ 0x08040000
      = (0x08040000 &&& (0x40000 - 1)) >>> 11 :=
  ⟨((C5_512K_dual_bank_addressing ⟨1, 0x08000000, 0x80000, 0x40000, 0⟩ 0x08040000
      rfl rfl).2.2.1 (by decide)).1,
   (C5_512K_dual_bank_addressing ⟨1, 0x08000000, 0x80000, 0x40000, 0⟩ 0x08040000
      rfl rfl).2.2.2 (by decide) (by decide)⟩

/-- C6 (as stated) fails: on the 512 KiB dual-bank part with base 0x08000000 and
bank mode 0 the address 0x08010000 lies below flashBase + flashBankSize =
0x08040000, so the resolver gives bank 0, not bank 1. -/
theorem C6_counterexample :
    0x08010000 < 0x08000000 + 0x40000 ∧
    GetFlashBankNum ⟨1, 0x08000000, 0x80000, 0x40000, 0⟩ 0x08010000 = 0 ∧
    GetFlashBankNum ⟨1, 0x08000000, 0x80000, 0x40000, 0⟩ 0x08010000 ≠ 1 := by
  decide

/-- C6 (amended): on the 512 KiB dual-bank part with base 0x08000000
(flashSize = 0x80000, flashBankSize = 0x40000, flashType = 1) whose bank mode
reports single-bank, EraseSector(0x08010000) resolves the address to bank 0 and
page (0x08010000 & (flashBankSize - 1)) >> 11 = 32, and the value it writes to
the control register after resetting the error flags is PER | (32 << 3) |
(0 << 13) = 0x102, which encodes exactly these two values. -/
theorem C6_eraseSector_512K_single_mode (c : Nat) (busy : List Nat) (ready st : Nat)
    (rest : List Nat) (hb : AllBusy busy) (hr : ready &&& FLASH_SR_BSY = 0) :
    GetFlashBankNum ⟨1, 0x08000000, 0x80000, 0x40000, 0⟩ 0x08010000 = 0 ∧
    GetFlashPageNum ⟨1, 0x08000000, 0x80000, 0x40000, 0⟩ 0x08010000
      = (0x08010000 &&& (0x40000 - 1)) >>> 11 ∧
    GetFlashPageNum ⟨1, 0x08000000, 0x80000, 0x40000, 0⟩ 0x08010000 = 32 ∧
    ∃ s, FLASH_MEM.EraseSector 0x08010000
          ⟨⟨1, 0x08000000, 0x80000, 0x40000, 0⟩, c :: (busy ++ ready :: st :: rest), []⟩
          = some (if st &&& FLASH_PGERR ≠ 0 then 1 else 0, s) ∧
      (regWrites s.trace).take 2 =
        [(Reg.SR, FLASH_PGERR), (Reg.CR, FLASH_CR_PER ||| (32 <<< 3) ||| (0 <<< 13))] ∧
      FLASH_CR_PER ||| (32 <<< 3) ||| (0 <<< 13) = 0x102 ∧
      (0x102 >>> 3) &&& 0x7F = 32 ∧ (0x102 >>> 13) &&& 1 = 0 := by
  refine ⟨by decide, by decide, by decide,
    ⟨_, FLASH_MEM.eraseSector_run _ 0x08010000 c busy ready st rest hb hr, ?_,
      by decide, by decide, by decide⟩⟩
  simp only [regWrites_append, regWrites, List.cons_append, List.take]
  have e1 : GetFlashPageNum ⟨1, 0x08000000, 0x80000, 0x40000, 0⟩ 0x08010000 = 32 := by decide
  have e2 : GetFlashBankNum ⟨1, 0x08000000, 0x80000, 0x40000, 0⟩ 0x08010000 = 0 := by decide
  have e3 : shl32 32 3 = 32 <<< 3 := by decide
  have e4 : shl32 0 13 = 0 <<< 13 := by decide
  rw [e1, e2, e3, e4]

/-- C6 (amended) on a run with one busy poll and a clean status word. -/
theorem C6_eraseSector_512K_single_mode_witness :
    GetFlashBankNum ⟨1, 0x08000000, 0x80000, 0x40000, 0⟩ 0x08010000 = 0 ∧
    GetFlashPageNum ⟨1, 0x08000000, 0x80000, 0x40000, 0⟩ 0x08010000
      = (0x08010000 &&& (0x40000 - 1)) >>> 11 ∧
    GetFlashPageNum ⟨1, 0x08000000, 0x80000, 0x40000, 0⟩ 0x08010000 = 32 ∧
    ∃ s, FLASH_MEM.EraseSector 0x08010000
          ⟨⟨1, 0x08000000, 0x80000, 0x40000, 0⟩, 0x102 :: ([0x10000] ++ 0 :: 0 :: []), []⟩
          = some (if 0 &&& FLASH_PGERR ≠ 0 then 1 else 0, s) ∧
      (regWrites s.trace).take 2 =
        [(Reg.SR, FLASH_PGERR), (Reg.CR, FLASH_CR_PER ||| (32 <<< 3) ||| (0 <<< 13))] ∧
      FLASH_CR_PER ||| (32 <<< 3) ||| (0 <<< 13) = 0x102 ∧
      (0x102 >>> 3) &&& 0x7F = 32 ∧ (0x102 >>> 13) &&& 1 = 0 :=
  C6_eraseSector_512K_single_mode 0x102 [0x10000] 0 0 [] (by decide) (by decide)

/-- C7: with flashBase = 0x08000000 the resolver reproduces the page-numbering
table of the file header on every address of every listed range; inside a range
the page is the range's first page plus one for every 2048 bytes. -/
theorem C7_page_numbering_table (adr mode : Nat) :
    -- 128 KiB single-bank device: bank 0, pages 0..63
    (0x08000000 ≤ adr → adr ≤ 0x0801FFFF →
      GetFlashBankNum ⟨0, 0x08000000, 0x20000, 0x10000, mode⟩ adr = 0 ∧
      GetFlashPageNum ⟨0, 0x08000000, 0x20000, 0x10000, mode⟩ adr
        = 0 + (adr - 0x08000000) / 2048 ∧
      GetFlashPageNum ⟨0, 0x08000000, 0x20000, 0x10000, mode⟩ adr ≤ 63) ∧
    -- 256 KiB dual-bank device in dual-bank mode, lower half: bank 0, pages 0..63
    (0x08000000 ≤ adr → adr ≤ 0x0801FFFF →
      GetFlashBankNum ⟨1, 0x08000000, 0x40000, 0x20000, 1⟩ adr = 0 ∧
      GetFlashPageNum ⟨1, 0x08000000, 0x40000, 0x20000, 1⟩ adr
        = 0 + (adr - 0x08000000) / 2048 ∧
      GetFlashPageNum ⟨1, 0x08000000, 0x40000, 0x20000, 1⟩ adr ≤ 63) ∧
    -- 256 KiB dual-bank device in dual-bank mode, upper half: bank 1, pages 0..63
    (0x08020000 ≤ adr → adr ≤ 0x0803FFFF →
      GetFlashBankNum ⟨1, 0x08000000, 0x40000, 0x20000, 1⟩ adr = 1 ∧
      GetFlashPageNum ⟨1, 0x08000000, 0x40000, 0x20000, 1⟩ adr
        = 0 + (adr - 0x08020000) / 2048 ∧
      GetFlashPageNum ⟨1, 0x08000000, 0x40000, 0x20000, 1⟩ adr ≤ 63) ∧
    -- 256 KiB dual-bank device in single-bank mode, lower half: bank 0, pages 0..63
    (0x08000000 ≤ adr → adr ≤ 0x0801FFFF →
      GetFlashBankNum ⟨1, 0x08000000, 0x40000, 0x20000, 0⟩ adr = 0 ∧
      GetFlashPageNum ⟨1, 0x08000000, 0x40000, 0x20000, 0⟩ adr
        = 0 + (adr - 0x08000000) / 2048 ∧
      GetFlashPageNum ⟨1, 0x08000000, 0x40000, 0x20000, 0⟩ adr ≤ 63) ∧
    -- 256 KiB dual-bank device in single-bank mode, upper half: bank 0, pages 64..127
    (0x08020000 ≤ adr → adr ≤ 0x0803FFFF →
      GetFlashBankNum ⟨1, 0x08000000, 0x40000, 0x20000, 0⟩ adr = 0 ∧
      GetFlashPageNum ⟨1, 0x08000000, 0x40000, 0x20000, 0⟩ adr
        = 64 + (adr - 0x08020000) / 2048 ∧
      GetFlashPageNum ⟨1, 0x08000000, 0x40000, 0x20000, 0⟩ adr ≤ 127) ∧
    -- 512 KiB dual-bank device, either mode, lower half: bank 0, pages 0..127
    (0x08000000 ≤ adr → adr ≤ 0x0803FFFF →
      GetFlashBankNum ⟨1, 0x08000000, 0x80000, 0x40000, mode⟩ adr = 0 ∧
      GetFlashPageNum ⟨1, 0x08000000, 0x80000, 0x40000, mode⟩ adr
        = 0 + (adr - 0x08000000) / 2048 ∧
      GetFlashPageNum ⟨1, 0x08000000, 0x80000, 0x40000, mode⟩ adr ≤ 127) ∧
    -- 512 KiB dual-bank device, either mode, upper half: bank 1, pages 0..127
    (0x08040000 ≤ adr → adr ≤ 0x0807FFFF →
      GetFlashBankNum ⟨1, 0x08000000, 0x80000, 0x40000, mode⟩ adr = 1 ∧
      GetFlashPageNum ⟨1, 0x08000000, 0x80000, 0x40000, mode⟩ adr
        = 0 + (adr - 0x08040000) / 2048 ∧
      GetFlashPageNum ⟨1, 0x08000000, 0x80000, 0x40000, mode⟩ adr ≤ 127) := by
  have s17 : sub32 0x20000 1 = 2 ^ 17 - 1 := by decide
  have s18 : sub32 0x40000 1 = 2 ^ 18 - 1 := by decide
  have a17 : add32 0x08000000 0x20000 = 0x08020000 := by decide
  have a18 : add32 0x08000000 0x40000 = 0x08040000 := by decide
  have m17 := mask_shift_eq adr 17
  have m18 := mask_shift_eq adr 18
  refine ⟨?_, ?_, ?_, ?_, ?_, ?_, ?_⟩ <;> intro h1 h2 <;>
    simp only [GetFlashBankNum, GetFlashPageNum, s17, s18, a17, a18, m17, m18] <;>
    simp <;> omega

/-- C7 at one address inside each of the seven ranges. -/
theorem C7_page_numbering_table_witness :
    (GetFlashBankNum ⟨0, 0x08000000, 0x20000, 0x10000, 0⟩ 0x0801FFFF = 0 ∧
      GetFlashPageNum ⟨0, 0x08000000, 0x20000, 0x10000, 0⟩ 0x0801FFFF
        = 0 + (0x0801FFFF - 0x08000000) / 2048 ∧
      GetFlashPageNum ⟨0, 0x08000000, 0x20000, 0x10000, 0⟩ 0x0801FFFF ≤ 63) ∧
    (GetFlashBankNum ⟨1, 0x08000000, 0x40000, 0x20000, 1⟩ 0x08000800 = 0 ∧
      GetFlashPageNum ⟨1, 0x08000000, 0x40000, 0x20000, 1⟩ 0x08000800
        = 0 + (0x08000800 - 0x08000000) / 2048 ∧
      GetFlashPageNum ⟨1, 0x08000000, 0x40000, 0x20000, 1⟩ 0x08000800 ≤ 63) ∧
    (GetFlashBankNum ⟨1, 0x08000000, 0x40000, 0x20000, 1⟩ 0x08020000 = 1 ∧
      GetFlashPageNum ⟨1, 0x08000000, 0x40000, 0x20000, 1⟩ 0x08020000
        = 0 + (0x08020000 - 0x08020000) / 2048 ∧
      GetFlashPageNum ⟨1, 0x08000000, 0x40000, 0x20000, 1⟩ 0x08020000 ≤ 63) ∧
    (GetFlashBankNum ⟨1, 0x08000000, 0x40000, 0x20000, 0⟩ 0x08000000 = 0 ∧
      GetFlashPageNum ⟨1, 0x08000000, 0x40000, 0x20000, 0⟩ 0x08000000
        = 0 + (0x08000000 - 0x08000000) / 2048 ∧
      GetFlashPageNum ⟨1, 0x08000000, 0x40000, 0x20000, 0⟩ 0x08000000 ≤ 63) ∧
    (GetFlashBankNum ⟨1, 0x08000000, 0x40000, 0x20000, 0⟩ 0x08030800 = 0 ∧
      GetFlashPageNum ⟨1, 0x08000000, 0x40000, 0x20000, 0⟩ 0x08030800
        = 64 + (0x08030800 - 0x08020000) / 2048 ∧
      GetFlashPageNum ⟨1, 0x08000000, 0x40000, 0x20000, 0⟩ 0x08030800 ≤ 127) ∧
    (GetFlashBankNum ⟨1, 0x08000000, 0x80000, 0x40000, 0⟩ 0x0803FFFF = 0 ∧
      GetFlashPageNum ⟨1, 0x08000000, 0x80000, 0x40000, 0⟩ 0x0803FFFF
        = 0 + (0x0803FFFF - 0x08000000) / 2048 ∧
      GetFlashPageNum ⟨1, 0x08000000, 0x80000, 0x40000, 0⟩ 0x0803FFFF ≤ 127) ∧
    (GetFlashBankNum ⟨1, 0x08000000, 0x80000, 0x40000, 1⟩ 0x0807F800 = 1 ∧
      GetFlashPageNum ⟨1, 0x08000000, 0x80000, 0x40000, 1⟩ 0x0807F800
        = 0 + (0x0807F800 - 0x08040000) / 2048 ∧
      GetFlashPageNum ⟨1, 0x08000000, 0x80000, 0x40000, 1⟩ 0x0807F800 ≤ 127) :=
  ⟨(C7_page_numbering_table 0x0801FFFF 0).1 (by decide) (by decide),
   (C7_page_numbering_table 0x08000800 0).2.1 (by decide) (by decide),
   (C7_page_numbering_table 0x08020000 0).2.2.1 (by decide) (by decide),
   (C7_page_numbering_table 0x08000000 0).2.2.2.1 (by decide) (by decide),
   (C7_page_numbering_table 0x08030800 0).2.2.2.2.1 (by decide) (by decide),
   (C7_page_numbering_table 0x0803FFFF 0).2.2.2.2.2.1 (by decide) (by decide),
   (C7_page_numbering_table 0x0807F800 1).2.2.2.2.2.2 (by decide) (by decide)⟩

/-- C8 (as stated) fails: on a 128 KiB single-bank device with the geometry of
Init (flashBankSize = 0x10000) the address 0x08010000 has page index 32, which
is not below flashBankSize / 2048 = 32. -/
theorem C8_counterexample :
    SupportedSize 0x20000 ∧ 0x10000 = 0x20000 >>> 1 ∧
    GetFlashPageNum ⟨0, 0x08000000, 0x20000, 0x10000, 0⟩ 0x08010000 = 32 ∧
    ¬ (GetFlashPageNum ⟨0, 0x08000000, 0x20000, 0x10000, 0⟩ 0x08010000
        < (⟨0, 0x08000000, 0x20000, 0x10000, 0⟩ : Globals).flashBankSize / 2048) := by
  decide

/-- C8 (amended): for every supported capacity, every chip-family value, every
bank mode and every address, under the geometry of Init (flashBankSize =
flashSize / 2) the page index returned by GetFlashPageNum is below
flashBankSize / 2048 when dual-bank addressing is active (flashType = 1 and
either flashBankMode = 1 or flashSize = 512 KiB), and below flashSize / 2048
otherwise. -/
theorem C8_page_index_range (g : Globals) (adr : Nat)
    (hS : SupportedSize g.flashSize) (hB : g.flashBankSize = g.flashSize >>> 1) :
    (DualAddressing g → GetFlashPageNum g adr < g.flashBankSize / 2048) ∧
    (¬ DualAddressing g → GetFlashPageNum g adr < g.flashSize / 2048) := by
  obtain ⟨ty, base, size, bsize, mode⟩ := g
  simp only at hS hB
  subst hB
  have hsub : sub32 size 1 = size - 1 ∧ sub32 (size >>> 1) 1 = size / 2 - 1 := by
    rcases hS with h | h | h | h | h | h <;> subst h <;> decide
  have hfull := mask_shift_le adr (size - 1)
  have hhalf := mask_shift_le adr (size / 2 - 1)
  have hshift : size >>> 1 = size / 2 := by rw [Nat.shiftRight_eq_div_pow]
  constructor
  · rintro ⟨hT, hM⟩
    simp only at hT hM
    simp only [GetFlashPageNum, hT, hM, if_true, hsub.2]
    rw [hshift]
    rcases hS with h | h | h | h | h | h <;> subst h <;> omega
  · intro hD
    have hpage : GetFlashPageNum ⟨ty, base, size, size >>> 1, mode⟩ adr
        = (adr &&& sub32 size 1) >>> 11 := by
      unfold DualAddressing at hD
      simp only [GetFlashPageNum]
      split_ifs with h1 h2
      · exact absurd ⟨h1, h2⟩ hD
      · rfl
      · rfl
    rw [hpage, hsub.1]
    show _ < size / 2048
    rcases hS with h | h | h | h | h | h <;> subst h <;> omega

/-- C8 (amended) at the last address of a 256 KiB device, once in dual-bank mode
(page 63 < 64) and once in single-bank mode (page 127 < 128). -/
theorem C8_page_index_range_witness :
    GetFlashPageNum ⟨1, 0x08000000, 0x40000, 0x20000, 1⟩ 0x0803FFFF
      < (⟨1, 0x08000000, 0x40000, 0x20000, 1⟩ : Globals).flashBankSize / 2048 ∧
    GetFlashPageNum ⟨1, 0x08000000, 0x40000, 0x20000, 0⟩ 0x0803FFFF
      < (⟨1, 0x08000000, 0x40000, 0x20000, 0⟩ : Globals).flashSize / 2048 :=
  ⟨(C8_page_index_range ⟨1, 0x08000000, 0x40000, 0x20000, 1⟩ 0x0803FFFF
      (by decide) (by decide)).1 (by decide),
   (C8_page_index_range ⟨1, 0x08000000, 0x40000, 0x20000, 0⟩ 0x0803FFFF
      (by decide) (by decide)).2 (by decide)⟩

/-! ## Claims C9-C10: EraseSector and Init -/

/-- C9: under a geometry whose flash size and bank size lie in 1 .. 512 KiB
(every supported capacity), main-memory EraseSector writes, in this order, the
error mask to the status register, then PER | (p << 3) | (b << 13) to the
control register, then the control register value it reads back or-ed with
STRT; the second value has bit 1 set, bits 3..12 equal to p, bit 13 equal to b
and every other bit clear. -/
theorem C9_eraseSector_write_order (g : Globals) (adr c : Nat) (busy : List Nat)
    (ready st : Nat) (rest : List Nat) (hb : AllBusy busy) (hr : ready &&& FLASH_SR_BSY = 0)
    (hS0 : 0 < g.flashSize) (hS : g.flashSize ≤ 0x80000)
    (hB0 : 0 < g.flashBankSize) (hB : g.flashBankSize ≤ 0x80000) :
    ∃ s x, FLASH_MEM.EraseSector adr ⟨g, c :: (busy ++ ready :: st :: rest), []⟩
        = some (if st &&& FLASH_PGERR ≠ 0 then 1 else 0, s) ∧
      x = FLASH_CR_PER ||| (GetFlashPageNum g adr <<< 3) ||| (GetFlashBankNum g adr <<< 13) ∧
      s.trace.take 4 =
        [Event.wr Reg.SR FLASH_PGERR, Event.wr Reg.CR x,
         Event.rd Reg.CR c, Event.wr Reg.CR (c ||| FLASH_CR_STRT)] ∧
      regWrites s.trace =
        [(Reg.SR, FLASH_PGERR), (Reg.CR, x), (Reg.CR, c ||| FLASH_CR_STRT)]
        ++ (if st &&& FLASH_PGERR ≠ 0 then [(Reg.SR, FLASH_PGERR)] else []) ∧
      x = 2 ^ 1 + GetFlashPageNum g adr * 2 ^ 3 + GetFlashBankNum g adr * 2 ^ 13 ∧
      GetFlashPageNum g adr < 2 ^ 10 ∧ GetFlashBankNum g adr < 2 ∧
      x.testBit 1 = true ∧
      (x >>> 3) &&& 0x3FF = GetFlashPageNum g adr ∧
      (x >>> 13) &&& 1 = GetFlashBankNum g adr ∧
      x &&& 0xFFFFC005 = 0 := by
  obtain ⟨hp, hbk⟩ := resolver_bounds g adr hS0 hS hB0 hB
  have hp' : GetFlashPageNum g adr < 1024 := by omega
  have hx := cr_fields _ _ hp' hbk
  have h3 : shl32 (GetFlashPageNum g adr) 3 = GetFlashPageNum g adr <<< 3 := by
    unfold shl32; rw [Nat.shiftLeft_eq]; exact Nat.mod_eq_of_lt (by omega)
  have h13 : shl32 (GetFlashBankNum g adr) 13 = GetFlashBankNum g adr <<< 13 := by
    unfold shl32; rw [Nat.shiftLeft_eq]; exact Nat.mod_eq_of_lt (by omega)
  rw [h3, h13] at hx
  refine ⟨_, _, FLASH_MEM.eraseSector_run g adr c busy ready st rest hb hr, rfl, ?_, ?_,
    ?_, by omega, hbk, ?_, ?_, ?_, ?_⟩
  · simp [h3, h13]
  · split_ifs <;> simp [regWrites_append, regWrites_polls, regWrites, h3, h13]
  · rw [hx]; norm_num
  · rw [hx, Nat.testBit_to_div_mod]
    simp only [decide_eq_true_eq]
    omega
  · rw [hx, Nat.shiftRight_eq_div_pow, show (0x3FF : Nat) = 2 ^ 10 - 1 by norm_num,
      Nat.and_pow_two_sub_one_eq_mod]
    omega
  · rw [hx, Nat.shiftRight_eq_div_pow, Nat.and_one_is_mod]
    omega
  · rw [hx]
    exact cr_other_bits_clear _ hp' _ hbk

/-- C9 at the last page of the 512 KiB part. -/
theorem C9_eraseSector_write_order_witness :
    ∃ s x, FLASH_MEM.EraseSector 0x0807F800
        ⟨⟨1, 0x08000000, 0x80000, 0x40000, 0⟩, 0x23FA :: ([0x10000] ++ 0 :: 0 :: []), []⟩
        = some (if 0 &&& FLASH_PGERR ≠ 0 then 1 else 0, s) ∧
      x = FLASH_CR_PER |||
            (GetFlashPageNum ⟨1, 0x08000000, 0x80000, 0x40000, 0⟩ 0x0807F800 <<< 3) |||
            (GetFlashBankNum ⟨1, 0x08000000, 0x80000, 0x40000, 0⟩ 0x0807F800 <<< 13) ∧
      s.trace.take 4 =
        [Event.wr Reg.SR FLASH_PGERR, Event.wr Reg.CR x,
         Event.rd Reg.CR 0x23FA, Event.wr Reg.CR (0x23FA ||| FLASH_CR_STRT)] ∧
      regWrites s.trace =
        [(Reg.SR, FLASH_PGERR), (Reg.CR, x), (Reg.CR, 0x23FA ||| FLASH_CR_STRT)]
        ++ (if 0 &&& FLASH_PGERR ≠ 0 then [(Reg.SR, FLASH_PGERR)] else []) ∧
      x = 2 ^ 1 + GetFlashPageNum ⟨1, 0x08000000, 0x80000, 0x40000, 0⟩ 0x0807F800 * 2 ^ 3
            + GetFlashBankNum ⟨1, 0x08000000, 0x80000, 0x40000, 0⟩ 0x0807F800 * 2 ^ 13 ∧
      GetFlashPageNum ⟨1, 0x08000000, 0x80000, 0x40000, 0⟩ 0x0807F800 < 2 ^ 10 ∧
      GetFlashBankNum ⟨1, 0x08000000, 0x80000, 0x40000, 0⟩ 0x0807F800 < 2 ∧
      x.testBit 1 = true ∧
      (x >>> 3) &&& 0x3FF = GetFlashPageNum ⟨1, 0x08000000, 0x80000, 0x40000, 0⟩ 0x0807F800 ∧
      (x >>> 13) &&& 1 = GetFlashBankNum ⟨1, 0x08000000, 0x80000, 0x40000, 0⟩ 0x0807F800 ∧
      x &&& 0xFFFFC005 = 0 :=
  C9_eraseSector_write_order ⟨1, 0x08000000, 0x80000, 0x40000, 0⟩ 0x0807F800 0x23FA
    [0x10000] 0 0 [] (by decide) (by decide) (by decide) (by decide) (by decide) (by decide)

/-- C10: for every adr, clk and fnc, whenever the busy bits clear after
finitely many polls, main-memory Init returns 0 and leaves flashBase = adr,
flashSize = (size probe & 0xFFFF) << 10, flashBankSize = flashSize >> 1,
flashType = 0 when IDCODE & 0xFFF is 0x456, 0x460 or 0x466 and 1 otherwise, and
flashBankMode = 1 exactly when bit 21 of the OPTR value read is set (else 0);
on a 64 KiB part of the single-bank family with DBANK clear this gives
flashType = 0, flashBankSize = 0x8000, flashBankMode = 0. -/
theorem C10_init_geometry (mem : Nat → Nat) (adr clk fnc : Nat) (g0 : Globals)
    (busy : List Nat) (ready id o0 o1 o2 : Nat) (rest : List Nat)
    (hb : AllBusy busy) (hr : ready &&& FLASH_SR_BSY = 0) :
    ∃ s, Init Region.MEM mem adr clk fnc
          ⟨g0, busy ++ ready :: id :: o0 :: o1 :: o2 :: rest, []⟩ = some (0, s) ∧
      s.g.flashBase = adr ∧
      s.g.flashSize = (mem FLASHSIZE_BASE &&& 0xFFFF) <<< 10 ∧
      s.g.flashBankSize = s.g.flashSize >>> 1 ∧
      ((id &&& 0xFFF = 0x456 ∨ id &&& 0xFFF = 0x460 ∨ id &&& 0xFFF = 0x466) →
        s.g.flashType = 0) ∧
      (¬ (id &&& 0xFFF = 0x456 ∨ id &&& 0xFFF = 0x460 ∨ id &&& 0xFFF = 0x466) →
        s.g.flashType = 1) ∧
      (o0.testBit 21 = true → s.g.flashBankMode = 1) ∧
      (o0.testBit 21 = false → s.g.flashBankMode = 0) ∧
      (adr = 0x08000000 → clk = 8000000 → fnc = 1 →
        mem FLASHSIZE_BASE &&& 0xFFFF = 64 →
        (id &&& 0xFFF = 0x456 ∨ id &&& 0xFFF = 0x460 ∨ id &&& 0xFFF = 0x466) →
        o0.testBit 21 = false →
        s.g.flashType = 0 ∧ s.g.flashBankSize = 0x8000 ∧ s.g.flashBankMode = 0 ∧
        s.g.flashSize = 0x10000 ∧ s.g.flashBase = 0x08000000) := by
  have hsz : shl32 (mem FLASHSIZE_BASE &&& 0xFFFF) 10 = (mem FLASHSIZE_BASE &&& 0xFFFF) <<< 10 := by
    have : mem FLASHSIZE_BASE &&& 0xFFFF ≤ 0xFFFF := Nat.and_le_right
    unfold shl32
    rw [Nat.shiftLeft_eq]
    exact Nat.mod_eq_of_lt (by omega)
  have hbit : o0 &&& FLASH_OPTR_DBANK ≠ 0 ↔ o0.testBit 21 = true := and_bit_ne_zero o0 21
  refine ⟨_, FLASH_MEM.init_run mem adr clk fnc g0 busy ready id o0 o1 o2 rest hb hr, rfl,
    hsz, rfl, ?_, ?_, ?_, ?_, ?_⟩
  · intro h; simp only [if_pos h]
  · intro h; simp only [if_neg h]
  · intro h; simp only [if_pos (hbit.2 h)]
  · intro h
    have : ¬ (o0 &&& FLASH_OPTR_DBANK ≠ 0) := fun hc => by rw [hbit.1 hc] at h; cases h
    simp only [if_neg this]
  · intro ha _ _ hm hid ho
    have : ¬ (o0 &&& FLASH_OPTR_DBANK ≠ 0) := fun hc => by rw [hbit.1 hc] at ho; cases ho
    simp only [if_pos hid, if_neg this, hm, ha]
    decide

/-- C10 on the scenario Init(0x08000000, 8000000, 1) with a size probe of
64 KiB, IDCODE 0x460, DBANK clear and one busy poll. -/
theorem C10_init_geometry_witness :
    ∃ s, Init Region.MEM (fun a => if a = FLASHSIZE_BASE then 64 else 0xFFFFFFFF)
          0x08000000 8000000 1
          ⟨⟨7, 7, 7, 7, 7⟩, [0x10000] ++ 0 :: 0x10006460 :: 0xDFDFE1AA :: 0xDFDFE1AA ::
            0xDFDFE1AA :: [], []⟩ = some (0, s) ∧
      s.g.flashType = 0 ∧ s.g.flashBankSize = 0x8000 ∧ s.g.flashBankMode = 0 ∧
      s.g.flashSize = 0x10000 ∧ s.g.flashBase = 0x08000000 :=
  match C10_init_geometry (fun a => if a = FLASHSIZE_BASE then 64 else 0xFFFFFFFF)
    0x08000000 8000000 1 ⟨7, 7, 7, 7, 7⟩ [0x10000] 0 0x10006460 0xDFDFE1AA 0xDFDFE1AA
    0xDFDFE1AA [] (by decide) (by decide) with
  | ⟨s, hrun, _, _, _, _, _, _, _, hsc⟩ =>
    ⟨s, hrun, hsc rfl rfl rfl (by decide) (by decide) (by decide)⟩

/-! ## Claims C11-C14: Init and the error mask -/

/-- C11: for every value of the size probe, the geometry stored by main-memory
Init satisfies flashBankSize * 2 = flashSize exactly: flashSize is the probe's
low 16 bits times 1024, so the right shift loses nothing, and both numbers stay
below 2^32. -/
theorem C11_bank_size_times_two (mem : Nat → Nat) (adr clk fnc : Nat) (g0 : Globals)
    (busy : List Nat) (ready id o0 o1 o2 : Nat) (rest : List Nat)
    (hb : AllBusy busy) (hr : ready &&& FLASH_SR_BSY = 0) :
    ∃ s, Init Region.MEM mem adr clk fnc
          ⟨g0, busy ++ ready :: id :: o0 :: o1 :: o2 :: rest, []⟩ = some (0, s) ∧
      s.g.flashBankSize * 2 = s.g.flashSize ∧
      s.g.flashSize = (mem FLASHSIZE_BASE &&& 0xFFFF) * 1024 ∧
      s.g.flashBankSize = (mem FLASHSIZE_BASE &&& 0xFFFF) * 512 ∧
      s.g.flashSize < 2 ^ 32 ∧ s.g.flashBankSize * 2 < 2 ^ 32 := by
  have hle : mem FLASHSIZE_BASE &&& 0xFFFF ≤ 0xFFFF := Nat.and_le_right
  have hsz : shl32 (mem FLASHSIZE_BASE &&& 0xFFFF) 10 = (mem FLASHSIZE_BASE &&& 0xFFFF) * 1024 := by
    rw [shl32_of_lt _ 10 (by omega)]; norm_num
  have hbk : shl32 (mem FLASHSIZE_BASE &&& 0xFFFF) 10 >>> 1
      = (mem FLASHSIZE_BASE &&& 0xFFFF) * 512 := by
    rw [hsz, Nat.shiftRight_eq_div_pow]
    omega
  refine ⟨_, FLASH_MEM.init_run mem adr clk fnc g0 busy ready id o0 o1 o2 rest hb hr, ?_, hsz,
    hbk, ?_, ?_⟩
  · show shl32 (mem FLASHSIZE_BASE &&& 0xFFFF) 10 >>> 1 * 2 = shl32 (mem FLASHSIZE_BASE &&& 0xFFFF) 10
    rw [hbk, hsz]; omega
  · show shl32 (mem FLASHSIZE_BASE &&& 0xFFFF) 10 < 2 ^ 32
    rw [hsz]; omega
  · show shl32 (mem FLASHSIZE_BASE &&& 0xFFFF) 10 >>> 1 * 2 < 2 ^ 32
    rw [hbk]; omega

/-- C11 on a size probe of 0xFFFF01FF (low half 511 KiB, an odd number of KiB)
with two busy polls. -/
theorem C11_bank_size_times_two_witness :
    ∃ s, Init Region.MEM (fun _ => 0xFFFF01FF) 0x08000000 8000000 1
          ⟨⟨7, 7, 7, 7, 7⟩, [0x10000, 0x20000] ++ 0 :: 0x467 :: 0 :: 0 :: 0 :: [], []⟩
          = some (0, s) ∧
      s.g.flashBankSize * 2 = s.g.flashSize ∧
      s.g.flashSize = ((fun _ => 0xFFFF01FF) FLASHSIZE_BASE &&& 0xFFFF) * 1024 ∧
      s.g.flashBankSize = ((fun _ => 0xFFFF01FF) FLASHSIZE_BASE &&& 0xFFFF) * 512 ∧
      s.g.flashSize < 2 ^ 32 ∧ s.g.flashBankSize * 2 < 2 ^ 32 :=
  C11_bank_size_times_two (fun _ => 0xFFFF01FF) 0x08000000 8000000 1 ⟨7, 7, 7, 7, 7⟩
    [0x10000, 0x20000] 0 0x467 0 0 0 [] (by decide) (by decide)

/-- C12 (as stated) fails: the status word 0x100 (MISSERR, bit 8) has none of
the nine listed bits set, yet main-memory EraseChip, EraseSector and
ProgramPage all return 1 on it. -/
theorem C12_counterexample :
    (∀ i ∈ [1, 3, 4, 5, 6, 7, 9, 14, 15], Nat.testBit 0x100 i = false) ∧
    0x100 &&& FLASH_PGERR ≠ 0 ∧
    (FLASH_MEM.EraseChip ⟨⟨0, 0x08000000, 0x10000, 0x8000, 0⟩, [0x8004, 0, 0x100], []⟩).map
      (fun r => r.1) = some 1 ∧
    (FLASH_MEM.EraseSector 0x08000800
      ⟨⟨0, 0x08000000, 0x10000, 0x8000, 0⟩, [0xA, 0, 0x100], []⟩).map (fun r => r.1) = some 1 ∧
    (FLASH_MEM.ProgramPage 2 0x08000800 8 (fun _ => 0)
      ⟨⟨0, 0x08000000, 0x10000, 0x8000, 0⟩, [0, 0x100], []⟩).map (fun r => r.1) = some 1 := by
  decide

/-- C12 (amended): the status bits that make an erase or program operation
report failure are the ten bits of FLASH_PGERR, the nine listed ones and MISSERR
(bit 8): whenever the status words read after the busy waits have none of bits
1, 3, 4, 5, 6, 7, 8, 9, 14, 15 set, EraseChip, EraseSector and ProgramPage (main
memory and option bytes) return 0, whatever the other status bits are. -/
theorem C12_only_mask_bits_fail (g : Globals) (adr sz c : Nat) (buf : Nat → Nat)
    (fam : Family) (db : Bool) (busy : List Nat) (ready st w : Nat) (rest : List Nat)
    (segs : List Seg) (fuel : Nat)
    (hb : AllBusy busy) (hr : ready &&& FLASH_SR_BSY = 0)
    (hst : ∀ i ∈ errorBits, st.testBit i = false)
    (hlen : segs.length = FLASH_MEM.adjustSize sz / 8)
    (hall : ∀ x ∈ segs, x.Ends ∧ ∀ i ∈ errorBits, x.status.testBit i = false)
    (hf : segs.length < fuel) :
    errorBits = [1, 3, 4, 5, 6, 7, 8, 9, 14, 15] ∧
    FLASH_PGERR = (errorBits.map (fun i => 2 ^ i)).sum ∧
    (∃ s, FLASH_MEM.EraseChip ⟨g, c :: (busy ++ ready :: st :: rest), []⟩ = some (0, s)) ∧
    (∃ s, FLASH_MEM.EraseSector adr ⟨g, c :: (busy ++ ready :: st :: rest), []⟩ = some (0, s)) ∧
    (∃ s, FLASH_MEM.ProgramPage fuel adr sz buf ⟨g, script segs ++ c :: rest, []⟩
      = some (0, s)) ∧
    (∃ s, FLASH_OPT.EraseChip fam db ⟨g, busy ++ ready :: st :: rest, []⟩ = some (0, s)) ∧
    (∃ s, FLASH_OPT.ProgramPage fam db adr sz buf ⟨g, busy ++ ready :: st :: w :: rest, []⟩
      = some (0, s)) := by
  have h0 : st &&& FLASH_PGERR = 0 := and_pgerr_eq_zero st hst
  have hv : verdict st = 0 := by simp [verdict, h0]
  have hall' : ∀ x ∈ segs, x.Ends ∧ x.Clean := fun x hx =>
    ⟨(hall x hx).1, and_pgerr_eq_zero _ (hall x hx).2⟩
  have e1 := FLASH_MEM.eraseChip_run g c busy ready st rest hb hr
  have e2 := FLASH_MEM.eraseSector_run g adr c busy ready st rest hb hr
  have e3 := FLASH_OPT.optEraseChip_run fam db g busy ready st rest hb hr
  have e4 := FLASH_OPT.optProgramPage_run fam db adr sz buf g busy ready st w rest hb hr
  rw [hv] at e1 e2 e3 e4
  exact ⟨rfl, by decide, ⟨_, e1⟩, ⟨_, e2⟩,
    ⟨_, FLASH_MEM.programPage_clean adr sz buf g segs c rest fuel hlen hall' hf⟩,
    ⟨_, e3⟩, ⟨_, e4⟩⟩

/-- C12 (amended) on status words that have every bit outside the mask set
(0xFFFF3C05). -/
theorem C12_only_mask_bits_fail_witness :
    errorBits = [1, 3, 4, 5, 6, 7, 8, 9, 14, 15] ∧
    FLASH_PGERR = (errorBits.map (fun i => 2 ^ i)).sum ∧
    (∃ s, FLASH_MEM.EraseChip
      ⟨⟨0, 0x08000000, 0x10000, 0x8000, 0⟩, 0x8004 :: ([0x10000] ++ 0 :: 0xFFFF3C05 :: []), []⟩
      = some (0, s)) ∧
    (∃ s, FLASH_MEM.EraseSector 0x08000800
      ⟨⟨0, 0x08000000, 0x10000, 0x8000, 0⟩, 0x8004 :: ([0x10000] ++ 0 :: 0xFFFF3C05 :: []), []⟩
      = some (0, s)) ∧
    (∃ s, FLASH_MEM.ProgramPage 2 0x08000800 8 (fun _ => 0)
      ⟨⟨0, 0x08000000, 0x10000, 0x8000, 0⟩,
        script [⟨[0x10000], 0, 0xFFFF3C05⟩] ++ 0x8004 :: [], []⟩ = some (0, s)) ∧
    (∃ s, FLASH_OPT.EraseChip Family.G0x0 false
      ⟨⟨0, 0x08000000, 0x10000, 0x8000, 0⟩, [0x10000] ++ 0 :: 0xFFFF3C05 :: [], []⟩
      = some (0, s)) ∧
    (∃ s, FLASH_OPT.ProgramPage Family.G0x0 false 0x08000800 8 (fun _ => 0)
      ⟨⟨0, 0x08000000, 0x10000, 0x8000, 0⟩, [0x10000] ++ 0 :: 0xFFFF3C05 :: 0 :: [], []⟩
      = some (0, s)) :=
  C12_only_mask_bits_fail ⟨0, 0x08000000, 0x10000, 0x8000, 0⟩ 0x08000800 8 0x8004 (fun _ => 0)
    Family.G0x0 false [0x10000] 0 0xFFFF3C05 0 [] [⟨[0x10000], 0, 0xFFFF3C05⟩] 2
    (by decide) (by decide) (by decide) (by decide) (by decide) (by decide)


/-- C13 (as stated) fails: in a run of main-memory Init the two key-register
writes are the second and third actions, and the first read of the status
register only comes after them. -/
theorem C13_counterexample :
    (Init Region.MEM (fun _ => 64) 0x08000000 8000000 1
        ⟨⟨0, 0, 0, 0, 0⟩, [0x10000, 0, 0x460, 0, 0x90000, 0x90000], []⟩).map
      (fun r => (r.1, r.2.trace.take 5)) =
      some (0, [Event.irqOff, Event.wr Reg.KEYR FLASH_KEY1, Event.wr Reg.KEYR FLASH_KEY2,
                Event.rd Reg.SR 0x10000, Event.nop]) ∧
    (Init Region.MEM (fun _ => 64) 0x08000000 8000000 1
        ⟨⟨0, 0, 0, 0, 0⟩, [0x10000, 0, 0x460, 0, 0x90000, 0x90000], []⟩).map
      (fun r => (r.2.trace.findIdx isKeyWrite, r.2.trace.findIdx isStatusRead)) =
      some (1, 3) := by
  decide

/-- C13 (amended): in every execution of Init the unlock key sequence comes
first, right after interrupts are disabled and before any read of the status
register: the trace is irqOff, the writes KEYR := KEY1, KEYR := KEY2 (and
OPTKEYR := OPTKEY1, OPTKEYR := OPTKEY2 in option-byte builds), and then the
busy wait and the rest, which contain no further key-register write. -/
theorem C13_unlock_precedes_wait (region : Region) (mem : Nat → Nat) (adr clk fnc : Nat)
    (g0 : Globals) (busy : List Nat) (ready id o0 o1 o2 : Nat) (rest : List Nat)
    (hb : AllBusy busy) (hr : ready &&& FLASH_SR_BSY = 0) :
    ∃ s tail, Init region mem adr clk fnc
          ⟨g0, busy ++ ready :: (probeTape region id o0 ++ o1 :: o2 :: rest), []⟩
          = some (0, s) ∧
      s.trace = Event.irqOff :: keyWrites region ++ (polls busy ++ [Event.rd Reg.SR ready])
                ++ tail ∧
      (keyWrites region).filter isKeyWrite = keyWrites region ∧
      (Event.irqOff :: keyWrites region).filter isStatusRead = [] ∧
      (polls busy ++ [Event.rd Reg.SR ready] ++ tail).filter isKeyWrite = [] ∧
      (polls busy ++ [Event.rd Reg.SR ready]).filter isStatusRead ≠ [] := by
  refine ⟨_, probeEvents region id o0 ++ [Event.rd Reg.OPTR o1]
        ++ (if o1 &&& FLASH_OPTR_IDWG_SW = 0 then
              iwdgWrites.map (fun w => Event.wr w.1 w.2) else [])
        ++ [Event.rd Reg.OPTR o2]
        ++ (if o2 &&& FLASH_OPTR_WWDG_SW = 0 then
              wwdgWrites.map (fun w => Event.wr w.1 w.2) else []),
    init_run_all region mem adr clk fnc g0 busy ready id o0 o1 o2 rest hb hr, ?_, ?_, ?_, ?_, ?_⟩
  · simp only [List.append_assoc, List.cons_append]
  · cases region <;> decide
  · cases region <;> decide
  · simp only [List.filter_append, filter_isKeyWrite_polls, List.nil_append]
    cases region <;> split_ifs <;> rfl
  · rw [List.filter_append]
    intro h
    have h2 := (List.append_eq_nil.1 h).2
    simp [List.filter, isStatusRead] at h2

/-- C13 (amended) on an option-byte build with one busy poll. -/
theorem C13_unlock_precedes_wait_witness :
    ∃ s tail, Init Region.OPT (fun _ => 0) 0x1FFF7800 8000000 2
          ⟨⟨0, 0, 0, 0, 0⟩,
            [0x20000] ++ 0 :: (probeTape Region.OPT 0 0 ++ 0x90000 :: 0 :: []), []⟩
          = some (0, s) ∧
      s.trace = Event.irqOff :: keyWrites Region.OPT
                ++ (polls [0x20000] ++ [Event.rd Reg.SR 0]) ++ tail ∧
      (keyWrites Region.OPT).filter isKeyWrite = keyWrites Region.OPT ∧
      (Event.irqOff :: keyWrites Region.OPT).filter isStatusRead = [] ∧
      (polls [0x20000] ++ [Event.rd Reg.SR 0] ++ tail).filter isKeyWrite = [] ∧
      (polls [0x20000] ++ [Event.rd Reg.SR 0]).filter isStatusRead ≠ [] :=
  C13_unlock_precedes_wait Region.OPT (fun _ => 0) 0x1FFF7800 8000000 2 ⟨0, 0, 0, 0, 0⟩
    [0x20000] 0 0 0 0x90000 0 [] (by decide) (by decide)

/-- C14 (as stated) fails: with both watchdogs hardware-forced (OPTR bits 16
and 19 clear) Init writes the registers of both, and with both in software mode
(bits set) it writes none of them. -/
theorem C14_counterexample :
    Nat.testBit 0 16 = false ∧ Nat.testBit 0 19 = false ∧
    (Init Region.OTP (fun _ => 0) 0x1FFF7000 8000000 2
        ⟨⟨0, 0, 0, 0, 0⟩, [0, 0, 0], []⟩).map
      (fun r => ((regWrites r.2.trace).filter (fun w => isIwdg w.1),
                 (regWrites r.2.trace).filter (fun w => isWwdg w.1))) =
      some (iwdgWrites, wwdgWrites) ∧
    Nat.testBit 0x90000 16 = true ∧ Nat.testBit 0x90000 19 = true ∧
    (Init Region.OTP (fun _ => 0) 0x1FFF7000 8000000 2
        ⟨⟨0, 0, 0, 0, 0⟩, [0, 0x90000, 0x90000], []⟩).map
      (fun r => ((regWrites r.2.trace).filter (fun w => isIwdg w.1),
                 (regWrites r.2.trace).filter (fun w => isWwdg w.1))) =
      some ([], []) := by
  decide

/-- C14 (amended): Init reconfigures a watchdog exactly when that watchdog is
hardware-forced: it writes the independent watchdog's registers (KR := 0xAAAA,
KR := 0x5555, PR := 6, RLR := 4095) exactly when bit 16 (IWDG_SW) of the option
register value it reads is clear, and the window watchdog's registers
(CFR := 0x1FF, CR := 0x7F) exactly when bit 19 (WWDG_SW) of the option register
value it reads is clear; when the bit is set (software mode) it writes none of
that watchdog's registers. -/
theorem C14_watchdog_when_hardware_forced (region : Region) (mem : Nat → Nat)
    (adr clk fnc : Nat) (g0 : Globals) (busy : List Nat) (ready id o0 o1 o2 : Nat)
    (rest : List Nat) (hb : AllBusy busy) (hr : ready &&& FLASH_SR_BSY = 0) :
    ∃ s, Init region mem adr clk fnc
          ⟨g0, busy ++ ready :: (probeTape region id o0 ++ o1 :: o2 :: rest), []⟩
          = some (0, s) ∧
      (regWrites s.trace).filter (fun w => isIwdg w.1)
        = (if o1.testBit 16 then [] else iwdgWrites) ∧
      (regWrites s.trace).filter (fun w => isWwdg w.1)
        = (if o2.testBit 19 then [] else wwdgWrites) ∧
      iwdgWrites = [(Reg.IWDG_KR, 0xAAAA), (Reg.IWDG_KR, 0x5555), (Reg.IWDG_PR, 6),
                    (Reg.IWDG_RLR, 4095)] ∧
      wwdgWrites = [(Reg.WWDG_CFR, 0x1FF), (Reg.WWDG_CR, 0x7F)] := by
  have hrw := regWrites_init region busy ready id o0 o1 o2
  have b1 : o1 &&& FLASH_OPTR_IDWG_SW = 0 ↔ ¬ (o1.testBit 16 = true) := by
    rw [← and_bit_ne_zero o1 16]
    exact ⟨fun h hc => hc h, fun h => Classical.not_not.1 h⟩
  have b2 : o2 &&& FLASH_OPTR_WWDG_SW = 0 ↔ ¬ (o2.testBit 19 = true) := by
    rw [← and_bit_ne_zero o2 19]
    exact ⟨fun h hc => hc h, fun h => Classical.not_not.1 h⟩
  refine ⟨_, init_run_all region mem adr clk fnc g0 busy ready id o0 o1 o2 rest hb hr, ?_, ?_,
    rfl, rfl⟩
  · simp only [hrw, List.filter_append]
    by_cases h1 : o1.testBit 16 = true <;> by_cases h2 : o2.testBit 19 = true <;>
      cases region <;>
      simp [h1, h2, b1, b2, keyWrites, regWrites, iwdgWrites, wwdgWrites, isIwdg, isWwdg]
  · simp only [hrw, List.filter_append]
    by_cases h1 : o1.testBit 16 = true <;> by_cases h2 : o2.testBit 19 = true <;>
      cases region <;>
      simp [h1, h2, b1, b2, keyWrites, regWrites, iwdgWrites, wwdgWrites, isIwdg, isWwdg]

/-- C14 (amended) on a main-memory build whose independent watchdog is
hardware-forced and whose window watchdog is in software mode. -/
theorem C14_watchdog_when_hardware_forced_witness :
    ∃ s, Init Region.MEM (fun _ => 64) 0x08000000 8000000 1
          ⟨⟨0, 0, 0, 0, 0⟩,
            [0x10000] ++ 0 :: (probeTape Region.MEM 0x460 0 ++ 0x80000 :: 0x80000 :: []), []⟩
          = some (0, s) ∧
      (regWrites s.trace).filter (fun w => isIwdg w.1)
        = (if Nat.testBit 0x80000 16 then [] else iwdgWrites) ∧
      (regWrites s.trace).filter (fun w => isWwdg w.1)
        = (if Nat.testBit 0x80000 19 then [] else wwdgWrites) ∧
      iwdgWrites = [(Reg.IWDG_KR, 0xAAAA), (Reg.IWDG_KR, 0x5555), (Reg.IWDG_PR, 6),
                    (Reg.IWDG_RLR, 4095)] ∧
      wwdgWrites = [(Reg.WWDG_CFR, 0x1FF), (Reg.WWDG_CR, 0x7F)] :=
  C14_watchdog_when_hardware_forced Region.MEM (fun _ => 64) 0x08000000 8000000 1
    ⟨0, 0, 0, 0, 0⟩ [0x10000] 0 0x460 0 0x80000 0x80000 [] (by decide) (by decide)


/-! ## Claims C15-C16: the option-byte ProgramPage and EraseChip -/

/-- C15: for every buffer, address and size, the option-byte ProgramPage writes,
after resetting the error flags, to each option register of the build's layout
the buffer word at the field's offset and-ed with the field's mask, in layout
order, then writes OPTSTRT to the control register exactly once; the outcome
does not depend on adr or sz. -/
theorem C15_option_program_layout (fam : Family) (db : Bool) (adr sz : Nat) (buf : Nat → Nat)
    (g : Globals) (busy : List Nat) (ready st w : Nat) (rest : List Nat)
    (hb : AllBusy busy) (hr : ready &&& FLASH_SR_BSY = 0) :
    ∃ s, FLASH_OPT.ProgramPage fam db adr sz buf ⟨g, busy ++ ready :: st :: w :: rest, []⟩
        = some (if st &&& FLASH_PGERR ≠ 0 then 1 else 0, s) ∧
      regWrites s.trace =
        (Reg.SR, FLASH_PGERR) ::
          (optionLayout fam db).map (fun f => (f.1, buf f.2.1 &&& f.2.2))
        ++ [(Reg.CR, FLASH_CR_OPTSTRT)]
        ++ (if st &&& FLASH_PGERR ≠ 0 then [(Reg.SR, w ||| FLASH_PGERR)] else []) ∧
      (regWrites s.trace).filter (fun x => x.1 = Reg.CR) = [(Reg.CR, FLASH_CR_OPTSTRT)] ∧
      (∀ (adr2 sz2 : Nat) (s0 : St),
        FLASH_OPT.ProgramPage fam db adr2 sz2 buf s0 = FLASH_OPT.ProgramPage fam db adr sz buf s0) := by
  have hrun := FLASH_OPT.optProgramPage_run fam db adr sz buf g busy ready st w rest hb hr
  have hrw := FLASH_OPT.regWrites_programPage fam db buf busy ready st w
  rw [FLASH_OPT.programValues_eq_layout] at hrw
  refine ⟨_, hrun, ?_, ?_, fun _ _ _ => rfl⟩
  · rw [← hrw, FLASH_OPT.programValues_eq_layout]
  · show List.filter _ (regWrites _) = _
    rw [FLASH_OPT.programValues_eq_layout, hrw]
    cases fam <;> cases db <;> split_ifs <;> simp [optionLayout]

/-- C15 on the G0x1 dual-bank build with a buffer whose word at offset `o` is
0xFFFFFF00 + o. -/
theorem C15_option_program_layout_witness :
    ∃ s, FLASH_OPT.ProgramPage Family.G0x1 true 0x1FFF7800 56 (fun o => 0xFFFFFF00 + o)
          ⟨⟨0, 0, 0, 0, 0⟩, [0x10000] ++ 0 :: 0x10 :: 0x10 :: [], []⟩
        = some (if 0x10 &&& FLASH_PGERR ≠ 0 then 1 else 0, s) ∧
      regWrites s.trace =
        (Reg.SR, FLASH_PGERR) ::
          (optionLayout Family.G0x1 true).map
            (fun f => (f.1, (fun o => 0xFFFFFF00 + o) f.2.1 &&& f.2.2))
        ++ [(Reg.CR, FLASH_CR_OPTSTRT)]
        ++ (if 0x10 &&& FLASH_PGERR ≠ 0 then [(Reg.SR, 0x10 ||| FLASH_PGERR)] else []) ∧
      (regWrites s.trace).filter (fun x => x.1 = Reg.CR) = [(Reg.CR, FLASH_CR_OPTSTRT)] ∧
      (∀ (adr2 sz2 : Nat) (s0 : St),
        FLASH_OPT.ProgramPage Family.G0x1 true adr2 sz2 (fun o => 0xFFFFFF00 + o) s0
          = FLASH_OPT.ProgramPage Family.G0x1 true 0x1FFF7800 56 (fun o => 0xFFFFFF00 + o) s0) :=
  C15_option_program_layout Family.G0x1 true 0x1FFF7800 56 (fun o => 0xFFFFFF00 + o)
    ⟨0, 0, 0, 0, 0⟩ [0x10000] 0 0x10 0x10 [] (by decide) (by decide)

/-- C16: whenever the busy bits clear, the option-byte EraseChip first writes the
error mask to the status register, then OPTR := 0xFFFFFEAA, WRP1AR and WRP1BR
:= 0x7F (G0x0) or 0xFF (G0x1) and the fixed reset constants of the remaining
protection registers of the build, then OPTSTRT to the control register exactly
once, and returns 0 exactly when the status word read after the busy wait has
no aggregate-error bit (1 otherwise). -/
theorem C16_option_erase_restores_defaults (fam : Family) (db : Bool) (g : Globals)
    (busy : List Nat) (ready st : Nat) (rest : List Nat)
    (hb : AllBusy busy) (hr : ready &&& FLASH_SR_BSY = 0) :
    ∃ s r, FLASH_OPT.EraseChip fam db ⟨g, busy ++ ready :: st :: rest, []⟩ = some (r, s) ∧
      (r = 0 ↔ st &&& FLASH_PGERR = 0) ∧ (r = 1 ↔ st &&& FLASH_PGERR ≠ 0) ∧
      regWrites s.trace =
        (Reg.SR, FLASH_PGERR) :: FLASH_OPT.eraseValues fam db
        ++ [(Reg.CR, FLASH_CR_OPTSTRT)]
        ++ (if st &&& FLASH_PGERR ≠ 0 then [(Reg.SR, FLASH_PGERR)] else []) ∧
      (regWrites s.trace).filter (fun x => x.1 = Reg.CR) = [(Reg.CR, FLASH_CR_OPTSTRT)] ∧
      FLASH_OPT.eraseValues Family.G0x0 false =
        [(Reg.OPTR, 0xFFFFFEAA), (Reg.WRP1AR, 0x7F), (Reg.WRP1BR, 0x7F)] ∧
      FLASH_OPT.eraseValues Family.G0x0 true =
        [(Reg.OPTR, 0xFFFFFEAA), (Reg.WRP1AR, 0x7F), (Reg.WRP1BR, 0x7F),
         (Reg.WRP2AR, 0x7F), (Reg.WRP2BR, 0x7F)] ∧
      FLASH_OPT.eraseValues Family.G0x1 false =
        [(Reg.OPTR, 0xFFFFFEAA), (Reg.WRP1AR, 0xFF), (Reg.WRP1BR, 0xFF),
         (Reg.PCROP1ASR, 0x1FF), (Reg.PCROP1AER, 0), (Reg.PCROP1BSR, 0x1FF),
         (Reg.PCROP1BER, 0), (Reg.SECR, 0)] ∧
      FLASH_OPT.eraseValues Family.G0x1 true =
        [(Reg.OPTR, 0xFFFFFEAA), (Reg.WRP1AR, 0xFF), (Reg.WRP1BR, 0xFF),
         (Reg.PCROP1ASR, 0x1FF), (Reg.PCROP1AER, 0), (Reg.PCROP1BSR, 0x1FF),
         (Reg.PCROP1BER, 0), (Reg.SECR, 0),
         (Reg.WRP2AR, 0xFF), (Reg.WRP2BR, 0xFF),
         (Reg.PCROP2ASR, 0x1FF), (Reg.PCROP2AER, 0), (Reg.PCROP2BSR, 0x1FF),
         (Reg.PCROP2BER, 0)] := by
  have hrun := FLASH_OPT.optEraseChip_run fam db g busy ready st rest hb hr
  have hrw := FLASH_OPT.regWrites_eraseChip fam db busy ready st
  refine ⟨_, _, hrun, ?_, ?_, hrw, ?_, rfl, rfl, rfl, rfl⟩
  · by_cases h : st &&& FLASH_PGERR = 0 <;> simp [verdict, h]
  · by_cases h : st &&& FLASH_PGERR = 0 <;> simp [verdict, h]
  · show List.filter _ (regWrites _) = _
    rw [hrw]
    cases fam <;> cases db <;> split_ifs <;> simp [FLASH_OPT.eraseValues]

/-- C16 on the G0x0 single-bank build, one busy poll, clean status. -/
theorem C16_option_erase_restores_defaults_witness :
    ∃ s, FLASH_OPT.EraseChip Family.G0x0 false
          ⟨⟨0, 0, 0, 0, 0⟩, [0x10000] ++ 0 :: 1 :: [], []⟩ = some (0, s) ∧
      regWrites s.trace =
        [(Reg.SR, FLASH_PGERR), (Reg.OPTR, 0xFFFFFEAA), (Reg.WRP1AR, 0x7F),
         (Reg.WRP1BR, 0x7F), (Reg.CR, FLASH_CR_OPTSTRT)] :=
  match C16_option_erase_restores_defaults Family.G0x0 false ⟨0, 0, 0, 0, 0⟩ [0x10000] 0 1 []
    (by decide) (by decide) with
  | ⟨s, r, hrun, h0, _, hrw, _, hv, _⟩ =>
    have hr0 : r = 0 := h0.2 (by decide)
    ⟨s, by rw [hrun, hr0], by rw [hrw, hv]; rfl⟩


/-! ## Claims C17-C18: UnInit and BlankCheck -/

/-- C17: for every function code, main-memory UnInit returns 0; when the word
at flashBase differs from 0xFFFFFFFF it reads the access control register and
writes it back with bit 16 (EMPTY) cleared and the other 31 bits unchanged,
and when the word equals 0xFFFFFFFF it does not touch that register; in both
cases it then reads the control register and writes it back with bit 31 (LOCK)
set and every other bit unchanged. -/
theorem C17_uninit_main_memory (mem : Nat → Nat) (fnc : Nat) (g : Globals) (a c : Nat)
    (rest : List Nat) :
    (mem g.flashBase ≠ 0xFFFFFFFF →
      UnInit Region.MEM mem fnc ⟨g, a :: c :: rest, []⟩ =
        some (0, ⟨g, rest,
          [Event.rd Reg.ACR a, Event.wr Reg.ACR (a &&& not32 FLASH_ACR_EMPTY),
           Event.rd Reg.CR c, Event.wr Reg.CR (c ||| FLASH_CR_LOCK), Event.dsb]⟩)) ∧
    (mem g.flashBase = 0xFFFFFFFF →
      UnInit Region.MEM mem fnc ⟨g, c :: rest, []⟩ =
        some (0, ⟨g, rest,
          [Event.rd Reg.CR c, Event.wr Reg.CR (c ||| FLASH_CR_LOCK), Event.dsb]⟩)) ∧
    Nat.testBit (a &&& not32 FLASH_ACR_EMPTY) 16 = false ∧
    (∀ i, i ≠ 16 → i < 32 → Nat.testBit (a &&& not32 FLASH_ACR_EMPTY) i = Nat.testBit a i) ∧
    Nat.testBit (c ||| FLASH_CR_LOCK) 31 = true ∧
    (∀ i, i ≠ 31 → Nat.testBit (c ||| FLASH_CR_LOCK) i = Nat.testBit c i) := by
  have hlock : FLASH_CR_LOCK = 2 ^ 31 := by decide
  refine ⟨fun h => ?_, fun h => ?_, ?_, ?_, ?_, ?_⟩
  · simp [UnInit, h, rd, wr, emit]
  · simp [UnInit, h, rd, wr, emit]
  · rw [Nat.testBit_and]
    have : Nat.testBit (not32 FLASH_ACR_EMPTY) 16 = false := by decide
    rw [this, Bool.and_false]
  · intro i h16 h32
    rw [Nat.testBit_and]
    have : Nat.testBit (not32 FLASH_ACR_EMPTY) i = true := by
      revert h16
      revert i h32
      decide
    rw [this, Bool.and_true]
  · rw [Nat.testBit_or, hlock, Nat.testBit_two_pow_self, Bool.or_true]
  · intro i hi
    rw [Nat.testBit_or, hlock, Nat.testBit_two_pow_of_ne (fun h => hi h.symm), Bool.or_false]

/-- C17 on a programmed flash (first word 0x20001000) and on an erased one. -/
theorem C17_uninit_main_memory_witness :
    UnInit Region.MEM (fun _ => 0x20001000) 1
        ⟨⟨0, 0x08000000, 0x10000, 0x8000, 0⟩, 0x00050600 :: 0x00000001 :: [], []⟩ =
      some (0, ⟨⟨0, 0x08000000, 0x10000, 0x8000, 0⟩, [],
        [Event.rd Reg.ACR 0x00050600, Event.wr Reg.ACR (0x00050600 &&& not32 FLASH_ACR_EMPTY),
         Event.rd Reg.CR 0x00000001, Event.wr Reg.CR (0x00000001 ||| FLASH_CR_LOCK),
         Event.dsb]⟩) ∧
    UnInit Region.MEM (fun _ => 0xFFFFFFFF) 1
        ⟨⟨0, 0x08000000, 0x10000, 0x8000, 0⟩, 0x00000001 :: [], []⟩ =
      some (0, ⟨⟨0, 0x08000000, 0x10000, 0x8000, 0⟩, [],
        [Event.rd Reg.CR 0x00000001, Event.wr Reg.CR (0x00000001 ||| FLASH_CR_LOCK),
         Event.dsb]⟩) :=
  ⟨(C17_uninit_main_memory (fun _ => 0x20001000) 1 ⟨0, 0x08000000, 0x10000, 0x8000, 0⟩
      0x00050600 0x00000001 []).1 (by decide),
   (C17_uninit_main_memory (fun _ => 0xFFFFFFFF) 1 ⟨0, 0x08000000, 0x10000, 0x8000, 0⟩
      0 0x00000001 []).2.1 (by decide)⟩

/-- C18: BlankCheck returns 1 for every address, size and pattern and in every
state; it consumes no tape word, adds no event to the trace and leaves the
globals alone, and it receives no memory to read. -/
theorem C18_blankCheck_always_fails (adr sz pat : Nat) (s : St) :
    ∃ s2, BlankCheck adr sz pat s = some (1, s2) ∧
      s2.trace = s.trace ∧ s2.tape = s.tape ∧ s2.g = s.g :=
  ⟨s, rfl, rfl, rfl, rfl⟩


/-! ## Claim C19: the encoded page contains the address -/

/-- C19: for every power-of-two flashSize = 2^k with 4096 <= flashSize (and
flashSize a 32-bit value, k <= 31), flashBankSize = flashSize / 2, flashBase a
multiple of flashSize, every chip-family value and bank mode, and every 32-bit
address with flashBase <= adr < flashBase + flashSize, the start
s = flashBase + b * flashBankSize + p * 2048 of the unit selected by
b = GetFlashBankNum(adr) and p = GetFlashPageNum(adr) satisfies
s <= adr < s + 2048. -/
theorem C19_page_contains_address (g : Globals) (adr k : Nat)
    (hk : 12 ≤ k) (hk31 : k ≤ 31)
    (hS : g.flashSize = 2 ^ k) (hB : g.flashBankSize = g.flashSize / 2)
    (hbase : g.flashSize ∣ g.flashBase)
    (hlo : g.flashBase ≤ adr) (hhi : adr < g.flashBase + g.flashSize)
    (hadr : adr < 2 ^ 32) :
    g.flashBase + GetFlashBankNum g adr * g.flashBankSize + GetFlashPageNum g adr * 2048 ≤ adr ∧
    adr < g.flashBase + GetFlashBankNum g adr * g.flashBankSize
            + GetFlashPageNum g adr * 2048 + 2048 := by
  obtain ⟨ty, base, S, B, mode⟩ := g
  simp only at hS hB hbase hlo hhi ⊢
  obtain ⟨m, hm⟩ := hbase
  have hpow : (2 : Nat) ^ k = 2 * 2 ^ (k - 1) := by
    rw [show k = (k - 1) + 1 by omega, Nat.pow_succ]
    simp only [Nat.add_sub_cancel]
    omega
  have hBeq : B = 2 ^ (k - 1) := by rw [hB, hS, hpow]; omega
  have hSB : S = 2 * B := by rw [hS, hBeq, hpow]
  have hS31 : (2 : Nat) ^ k ≤ 2 ^ 31 := Nat.pow_le_pow_right (by decide) hk31
  have hSpos : 0 < (2 : Nat) ^ k := Nat.pow_pos (by decide)
  have hBpos : 0 < (2 : Nat) ^ (k - 1) := Nat.pow_pos (by decide)
  have h32 : (2 : Nat) ^ 32 = 2 ^ k * 2 ^ (32 - k) := by
    rw [← Nat.pow_add]; congr 1; omega
  have hwrap : base + S ≤ 2 ^ 32 := by
    have hb32 : 2 ^ k * m < 2 ^ k * 2 ^ (32 - k) := by
      rw [← h32, ← hS, ← hm]; omega
    have hmlt : m < 2 ^ (32 - k) := Nat.lt_of_mul_lt_mul_left hb32
    have hle : 2 ^ k * (m + 1) ≤ 2 ^ k * 2 ^ (32 - k) := Nat.mul_le_mul_left _ hmlt
    rw [h32, hm, hS]
    calc 2 ^ k * m + 2 ^ k = 2 ^ k * (m + 1) := by ring
      _ ≤ 2 ^ k * 2 ^ (32 - k) := hle
  have modS : adr &&& sub32 S 1 = adr % S := by
    rw [hS, sub32_of_le _ 1 hSpos (by omega), Nat.and_pow_two_sub_one_eq_mod]
  have modB : adr &&& sub32 B 1 = adr % B := by
    rw [hBeq, sub32_of_le _ 1 hBpos (by omega), Nat.and_pow_two_sub_one_eq_mod]
  exact resolver_page_contains ty base S B mode m adr hSB hm hlo hhi hwrap modS modB

/-- C19 on the 256 KiB device in dual-bank mode at 0x08020804 (bank 1, page 1)
and in single-bank mode at the same address (bank 0, page 65). -/
theorem C19_page_contains_address_witness :
    (0x08000000 + GetFlashBankNum ⟨1, 0x08000000, 0x40000, 0x20000, 1⟩ 0x08020804 * 0x20000
        + GetFlashPageNum ⟨1, 0x08000000, 0x40000, 0x20000, 1⟩ 0x08020804 * 2048 ≤ 0x08020804 ∧
      0x08020804 < 0x08000000
        + GetFlashBankNum ⟨1, 0x08000000, 0x40000, 0x20000, 1⟩ 0x08020804 * 0x20000
        + GetFlashPageNum ⟨1, 0x08000000, 0x40000, 0x20000, 1⟩ 0x08020804 * 2048 + 2048) ∧
    (0x08000000 + GetFlashBankNum ⟨1, 0x08000000, 0x40000, 0x20000, 0⟩ 0x08020804 * 0x20000
        + GetFlashPageNum ⟨1, 0x08000000, 0x40000, 0x20000, 0⟩ 0x08020804 * 2048 ≤ 0x08020804 ∧
      0x08020804 < 0x08000000
        + GetFlashBankNum ⟨1, 0x08000000, 0x40000, 0x20000, 0⟩ 0x08020804 * 0x20000
        + GetFlashPageNum ⟨1, 0x08000000, 0x40000, 0x20000, 0⟩ 0x08020804 * 2048 + 2048) :=
  ⟨C19_page_contains_address ⟨1, 0x08000000, 0x40000, 0x20000, 1⟩ 0x08020804 18
      (by decide) (by decide) (by decide) (by decide) (by decide) (by decide) (by decide)
      (by decide),
   C19_page_contains_address ⟨1, 0x08000000, 0x40000, 0x20000, 0⟩ 0x08020804 18
      (by decide) (by decide) (by decide) (by decide) (by decide) (by decide) (by decide)
      (by decide)⟩


/-! ## Claim C20: the factory image under the masks of ProgramPage -/

/-- C20 (as stated) fails: the factory value 0xFFFFFEAA that EraseChip writes to
OPTR is changed by the mask 0x3F7FFFFF that ProgramPage applies to OPTR, so on
the G0x0 single-bank build ProgramPage with the factory image writes
OPTR := 0x3F7FFEAA where EraseChip writes OPTR := 0xFFFFFEAA. -/
theorem C20_counterexample :
    (Reg.OPTR, 0xFFFFFEAA) ∈ FLASH_OPT.eraseValues Family.G0x0 false ∧
    (Reg.OPTR, 0, 0x3F7FFFFF) ∈ optionLayout Family.G0x0 false ∧
    0xFFFFFEAA &&& 0x3F7FFFFF ≠ 0xFFFFFEAA ∧
    (FLASH_OPT.ProgramPage Family.G0x0 false 0x1FFF7800 12 (factoryImage Family.G0x0 false)
        ⟨⟨0, 0, 0, 0, 0⟩, [0, 0, 0], []⟩).map (fun r => regWrites r.2.trace) =
      some [(Reg.SR, FLASH_PGERR), (Reg.OPTR, 0x3F7FFEAA), (Reg.WRP1AR, 0x7F),
            (Reg.WRP1BR, 0x7F), (Reg.CR, FLASH_CR_OPTSTRT)] ∧
    (FLASH_OPT.EraseChip Family.G0x0 false ⟨⟨0, 0, 0, 0, 0⟩, [0, 0, 0], []⟩).map
        (fun r => regWrites r.2.trace) =
      some [(Reg.SR, FLASH_PGERR), (Reg.OPTR, 0xFFFFFEAA), (Reg.WRP1AR, 0x7F),
            (Reg.WRP1BR, 0x7F), (Reg.CR, FLASH_CR_OPTSTRT)] := by
  decide

/-- C20 (amended): in every option-byte build the factory image is laid out like
the option registers (field i at byte offset 4i, same register), and
ProgramPage with a buffer holding the factory image writes to each register
the factory value and-ed with the register's mask; this is the factory value
itself for every register except OPTR in every build (0x3F7FFEAA instead of
0xFFFFFEAA) and except WRP1AR, WRP1BR, WRP2AR, WRP2BR in G0x1 builds (0x7F
instead of 0xFF). -/
theorem C20_factory_image_masked (fam : Family) (db : Bool) (adr sz : Nat) (g : Globals)
    (busy : List Nat) (ready st w : Nat) (rest : List Nat)
    (hb : AllBusy busy) (hr : ready &&& FLASH_SR_BSY = 0) (hst : st &&& FLASH_PGERR = 0) :
    (optionLayout fam db).map (fun f => f.1) = (FLASH_OPT.eraseValues fam db).map (fun v => v.1) ∧
    (optionLayout fam db).map (fun f => f.2.1)
      = (List.range (FLASH_OPT.eraseValues fam db).length).map (fun i => 4 * i) ∧
    (∀ p ∈ List.zip (FLASH_OPT.eraseValues fam db) (optionLayout fam db),
      (p.1.2 &&& p.2.2.2 = p.1.2 ↔ maskChanges fam p.1.1 = false)) ∧
    (∀ p ∈ List.zip (FLASH_OPT.eraseValues fam db) (optionLayout fam db),
      maskChanges fam p.1.1 = true →
        p.1.2 &&& p.2.2.2 = (if p.1.1 = Reg.OPTR then 0x3F7FFEAA else 0x7F)) ∧
    (∃ s, FLASH_OPT.ProgramPage fam db adr sz (factoryImage fam db)
          ⟨g, busy ++ ready :: st :: w :: rest, []⟩ = some (0, s) ∧
      regWrites s.trace =
        (Reg.SR, FLASH_PGERR) ::
          (List.zip (FLASH_OPT.eraseValues fam db) (optionLayout fam db)).map
            (fun p => (p.1.1, p.1.2 &&& p.2.2.2))
        ++ [(Reg.CR, FLASH_CR_OPTSTRT)]) ∧
    (∃ s, FLASH_OPT.EraseChip fam db ⟨g, busy ++ ready :: st :: rest, []⟩ = some (0, s) ∧
      regWrites s.trace =
        (Reg.SR, FLASH_PGERR) :: FLASH_OPT.eraseValues fam db ++ [(Reg.CR, FLASH_CR_OPTSTRT)]) := by
  have hv : verdict st = 0 := by simp [verdict, hst]
  have hne : ¬ (st &&& FLASH_PGERR ≠ 0) := fun h => h hst
  have e1 := FLASH_OPT.optProgramPage_run fam db adr sz (factoryImage fam db) g busy ready st w
    rest hb hr
  have e2 := FLASH_OPT.optEraseChip_run fam db g busy ready st rest hb hr
  have r1 := FLASH_OPT.regWrites_programPage fam db (factoryImage fam db) busy ready st w
  have r2 := FLASH_OPT.regWrites_eraseChip fam db busy ready st
  have hpv : FLASH_OPT.programValues fam db (factoryImage fam db)
      = (List.zip (FLASH_OPT.eraseValues fam db) (optionLayout fam db)).map
          (fun p => (p.1.1, p.1.2 &&& p.2.2.2)) := by
    cases fam <;> cases db <;> decide
  rw [hv] at e1 e2
  refine ⟨?_, ?_, ?_, ?_, ⟨_, e1, Eq.trans r1 ?_⟩, ⟨_, e2, Eq.trans r2 ?_⟩⟩
  · cases fam <;> cases db <;> decide
  · cases fam <;> cases db <;> decide
  · cases fam <;> cases db <;> decide
  · cases fam <;> cases db <;> decide
  · rw [hpv, if_neg hne, List.append_nil]
  · rw [if_neg hne, List.append_nil]

/-- C20 (amended) on the G0x1 dual-bank build with one busy poll. -/
theorem C20_factory_image_masked_witness :
    ∃ s, FLASH_OPT.ProgramPage Family.G0x1 true 0x1FFF7800 56 (factoryImage Family.G0x1 true)
          ⟨⟨0, 0, 0, 0, 0⟩, [0x10000] ++ 0 :: 1 :: 0 :: [], []⟩ = some (0, s) ∧
      regWrites s.trace =
        [(Reg.SR, FLASH_PGERR), (Reg.OPTR, 0x3F7FFEAA), (Reg.WRP1AR, 0x7F), (Reg.WRP1BR, 0x7F),
         (Reg.PCROP1ASR, 0x1FF), (Reg.PCROP1AER, 0), (Reg.PCROP1BSR, 0x1FF),
         (Reg.PCROP1BER, 0), (Reg.SECR, 0), (Reg.WRP2AR, 0x7F), (Reg.WRP2BR, 0x7F),
         (Reg.PCROP2ASR, 0x1FF), (Reg.PCROP2AER, 0), (Reg.PCROP2BSR, 0x1FF),
         (Reg.PCROP2BER, 0), (Reg.CR, FLASH_CR_OPTSTRT)] :=
  match (C20_factory_image_masked Family.G0x1 true 0x1FFF7800 56 ⟨0, 0, 0, 0, 0⟩ [0x10000] 0 1 0
    [] (by decide) (by decide) (by decide)).2.2.2.2.1 with
  | ⟨s, hrun, hrw⟩ => ⟨s, hrun, by rw [hrw]; decide⟩


end STM32G0xx
